import Mathlib

set_option autoImplicit false

namespace Seppy

/-!
# Verification of the Seppy script-splitting engine

Shallow embedding of the repository `mr-kotik/Seppy` (files `src/seppy/core.py`,
`src/seppy/analyzers.py`, `src/seppy/processors.py`, `src/seppy/models.py`,
`src/seppy/config.py`, `src/seppy/exceptions.py`).

The engine parses a Python script with CPython's `ast` module, walks the tree,
and synthesizes one standalone "module" per discovered declaration.  The `ast`
module itself is external to the repository; we embed the fragment of Python
abstract syntax that the verified claims exercise, and we embed CPython's
documented behaviour of `ast.walk` (breadth-first queue traversal) and
`ast.unparse` on that fragment.  `ast.get_source_segment` (exact source
slicing, which depends on position data we do not model) is taken as an
explicit oracle parameter `σ` that may itself raise (CPython's slicing code
indexes a line list, so inconsistent positions raise `IndexError`); against
the empty source — `core.py`'s fallback when the source file cannot be
re-read — any parser-positioned node makes CPython's implementation index
into an empty line list, raising `IndexError: list index out of range`,
while a node constructed without position attributes yields `None`.

Python exceptions are modelled with `Except String`; a raised exception is
`Except.error msg`.  Python `dict`s are association lists with
insert-or-replace semantics (replacement keeps the key's position, like a
CPython dict); Python `set`s are duplicate-free lists where only membership
matters.
-/

/-- Fragment of the Python abstract syntax (CPython `ast` node types) used by
the repository.  Constructor fields follow CPython's `_fields` order so that
child traversal visits children in the same order as CPython's
`ast.iter_child_nodes`.  Fragment restrictions: function parameters are plain
identifiers (kept as strings, so the `arguments` node contributes no walked
children); classes carry no decorators and no keyword arguments; assignment
targets are single plain names kept as strings; constructs the verified
claims do not exercise (comprehensions, `with`, `match`, `yield`, `await`,
annotated assignments, lambdas, f-strings, …) are omitted. -/
inductive Py where
  | module (body : List Py)
  | functionDef (name : String) (args : List String) (body : List Py) (decoratorList : List Py)
  | asyncFunctionDef (name : String) (args : List String) (body : List Py) (decoratorList : List Py)
  | classDef (name : String) (bases : List Py) (body : List Py)
  | assign (target : String) (value : Py)
  | ret (value : Py)
  | exprStmt (value : Py)
  | passStmt
  | globalStmt (names : List String)
  | nonlocalStmt (names : List String)
  | tryStmt (body : List Py) (handlers : List Py) (orelse : List Py) (finalbody : List Py)
  | exceptHandler (typ : Option Py) (nm : Option String) (body : List Py)
  | pyName (id : String)
  | attrAccess (value : Py) (attr : String)
  | intConst (n : Int)
  | strConst (s : String)
  | call (func : Py) (args : List Py) (keywords : List Py)
  | keyword (arg : String) (value : Py)

instance : Inhabited Py := ⟨.passStmt⟩

mutual

/-- Number of AST nodes in a tree (counting nodes of the fragment only);
used as a height bound for the breadth-first walk. -/
def Py.psize : Py → Nat
  | .module b => 1 + Py.psizeL b
  | .functionDef _ _ b d => 1 + Py.psizeL b + Py.psizeL d
  | .asyncFunctionDef _ _ b d => 1 + Py.psizeL b + Py.psizeL d
  | .classDef _ bs b => 1 + Py.psizeL bs + Py.psizeL b
  | .assign _ v => 1 + v.psize
  | .ret v => 1 + v.psize
  | .exprStmt v => 1 + v.psize
  | .passStmt => 1
  | .globalStmt _ => 1
  | .nonlocalStmt _ => 1
  | .tryStmt b h o f => 1 + Py.psizeL b + Py.psizeL h + Py.psizeL o + Py.psizeL f
  | .exceptHandler t _ b => 1 + Py.psizeO t + Py.psizeL b
  | .pyName _ => 1
  | .attrAccess v _ => 1 + v.psize
  | .intConst _ => 1
  | .strConst _ => 1
  | .call f a k => 1 + f.psize + Py.psizeL a + Py.psizeL k
  | .keyword _ v => 1 + v.psize

def Py.psizeL : List Py → Nat
  | [] => 0
  | x :: xs => x.psize + Py.psizeL xs

def Py.psizeO : Option Py → Nat
  | none => 0
  | some x => x.psize

end

mutual

/-- Structural (boolean) equality of AST nodes.  CPython compares nodes by
object identity; structural equality coincides with identity on the inputs we
consider (the hypotheses of the general theorems pin down the relevant node
uniquely). -/
def Py.beq : Py → Py → Bool
  | .module b1, .module b2 => Py.beqL b1 b2
  | .functionDef n1 a1 b1 d1, .functionDef n2 a2 b2 d2 =>
      n1 == n2 && a1 == a2 && Py.beqL b1 b2 && Py.beqL d1 d2
  | .asyncFunctionDef n1 a1 b1 d1, .asyncFunctionDef n2 a2 b2 d2 =>
      n1 == n2 && a1 == a2 && Py.beqL b1 b2 && Py.beqL d1 d2
  | .classDef n1 bs1 b1, .classDef n2 bs2 b2 => n1 == n2 && Py.beqL bs1 bs2 && Py.beqL b1 b2
  | .assign t1 v1, .assign t2 v2 => t1 == t2 && v1.beq v2
  | .ret v1, .ret v2 => v1.beq v2
  | .exprStmt v1, .exprStmt v2 => v1.beq v2
  | .passStmt, .passStmt => true
  | .globalStmt n1, .globalStmt n2 => n1 == n2
  | .nonlocalStmt n1, .nonlocalStmt n2 => n1 == n2
  | .tryStmt b1 h1 o1 f1, .tryStmt b2 h2 o2 f2 =>
      Py.beqL b1 b2 && Py.beqL h1 h2 && Py.beqL o1 o2 && Py.beqL f1 f2
  | .exceptHandler t1 n1 b1, .exceptHandler t2 n2 b2 =>
      Py.beqO t1 t2 && n1 == n2 && Py.beqL b1 b2
  | .pyName i1, .pyName i2 => i1 == i2
  | .attrAccess v1 a1, .attrAccess v2 a2 => v1.beq v2 && a1 == a2
  | .intConst n1, .intConst n2 => n1 == n2
  | .strConst s1, .strConst s2 => s1 == s2
  | .call f1 a1 k1, .call f2 a2 k2 => f1.beq f2 && Py.beqL a1 a2 && Py.beqL k1 k2
  | .keyword a1 v1, .keyword a2 v2 => a1 == a2 && v1.beq v2
  | _, _ => false

def Py.beqL : List Py → List Py → Bool
  | [], [] => true
  | x :: xs, y :: ys => x.beq y && Py.beqL xs ys
  | _, _ => false

def Py.beqO : Option Py → Option Py → Bool
  | none, none => true
  | some x, some y => x.beq y
  | _, _ => false

end

instance : BEq Py := ⟨Py.beq⟩

/-- The AST-valued children of a node, in CPython field order
(`ast.iter_child_nodes`). -/
def Py.children : Py → List Py
  | .module body => body
  | .functionDef _ _ body decoratorList => body ++ decoratorList
  | .asyncFunctionDef _ _ body decoratorList => body ++ decoratorList
  | .classDef _ bases body => bases ++ body
  | .assign _ value => [value]
  | .ret value => [value]
  | .exprStmt value => [value]
  | .passStmt => []
  | .globalStmt _ => []
  | .nonlocalStmt _ => []
  | .tryStmt body handlers orelse finalbody => body ++ handlers ++ orelse ++ finalbody
  | .exceptHandler typ _ body => typ.toList ++ body
  | .pyName _ => []
  | .attrAccess value _ => [value]
  | .intConst _ => []
  | .strConst _ => []
  | .call func args keywords => func :: (args ++ keywords)
  | .keyword _ value => [value]

/-- One breadth-first step: all children of a queue of nodes, in order. -/
def stepChildren (ts : List Py) : List Py := ts.flatMap Py.children

/-- The nodes at depth `n` below a queue of roots (each root at depth 0),
in left-to-right order. -/
def nodesAt : Nat → List Py → List Py
  | 0, ts => ts
  | n + 1, ts => nodesAt n (stepChildren ts)

/-- The first `n` breadth-first levels, concatenated. -/
def walkTo : Nat → List Py → List Py
  | 0, _ => []
  | n + 1, ts => ts ++ walkTo n (stepChildren ts)

/-- CPython's `ast.walk`: the node itself followed by all its descendants in
breadth-first (queue) order.  We compute it as the concatenation of the
breadth-first levels, cut off at the node-count bound `psize`, which exceeds
the tree height; `walk_eq_walkQueue` below proves this equal to the literal
FIFO-queue traversal that `ast.walk` performs. -/
def Py.walk (t : Py) : List Py := walkTo t.psize [t]

/-- The literal CPython `ast.walk` loop: pop a node from the front of the
queue, yield it, push its children at the back. -/
def walkQueue : List Py → List Py
  | [] => []
  | t :: rest => t :: walkQueue (rest ++ t.children)
termination_by ts => Py.psizeL ts
decreasing_by
  rename Py => t
  rename List Py => rest
  have happ : ∀ a b : List Py, Py.psizeL (a ++ b) = Py.psizeL a + Py.psizeL b := by
    intro a b
    induction a with
    | nil => simp [Py.psizeL]
    | cons x xs ih => simp [Py.psizeL, ih]; omega
  have hch : Py.psizeL t.children < t.psize := by
    cases t <;> simp [Py.psize, Py.children, Py.psizeL, happ] <;>
      first
      | omega
      | (rename_i o _ _; cases o <;> simp [Py.psizeO, Option.toList, Py.psizeL, happ] <;> omega)
  simp only [happ, Py.psizeL]
  omega

/-! ## `ast.unparse` on the fragment

`ast.unparse` renders a node back to source text; compound statements are
rendered with one four-space indentation level per block.  Only the shapes
reachable from the embedded fragment are implemented. -/

/-- Split a string at every newline (`str.split("\n")`). -/
def splitLinesChars : List Char → List (List Char)
  | [] => [[]]
  | c :: rest =>
      let r := splitLinesChars rest
      if c == '\n' then [] :: r
      else
        match r with
        | [] => [[c]]
        | w :: ws => (c :: w) :: ws

def splitLines (s : String) : List String := (splitLinesChars s.data).map (fun w => ⟨w⟩)

def indent4 (s : String) : String :=
  String.intercalate "\n" ((splitLines s).map (fun line => "    " ++ line))

mutual

def Py.unparse : Py → String
  | .module body => Py.unparseBlock body
  | .functionDef name args body decoratorList =>
      String.intercalate "" ((Py.unparseList decoratorList).map (fun d => "@" ++ d ++ "\n")) ++
        "def " ++ name ++ "(" ++ String.intercalate ", " args ++ "):\n" ++
        indent4 (Py.unparseBlock body)
  | .asyncFunctionDef name args body decoratorList =>
      String.intercalate "" ((Py.unparseList decoratorList).map (fun d => "@" ++ d ++ "\n")) ++
        "async def " ++ name ++ "(" ++ String.intercalate ", " args ++ "):\n" ++
        indent4 (Py.unparseBlock body)
  | .classDef name bases body =>
      "class " ++ name ++
        (if bases.isEmpty then "" else "(" ++ String.intercalate ", " (Py.unparseList bases) ++ ")") ++
        ":\n" ++ indent4 (Py.unparseBlock body)
  | .assign target value => target ++ " = " ++ value.unparse
  | .ret value => "return " ++ value.unparse
  | .exprStmt value => value.unparse
  | .passStmt => "pass"
  | .globalStmt names => "global " ++ String.intercalate ", " names
  | .nonlocalStmt names => "nonlocal " ++ String.intercalate ", " names
  | .tryStmt body handlers orelse finalbody =>
      "try:\n" ++ indent4 (Py.unparseBlock body) ++
        String.intercalate "" (Py.unparseList handlers |>.map (fun h => "\n" ++ h)) ++
        (if orelse.isEmpty then "" else "\nelse:\n" ++ indent4 (Py.unparseBlock orelse)) ++
        (if finalbody.isEmpty then "" else "\nfinally:\n" ++ indent4 (Py.unparseBlock finalbody))
  | .exceptHandler typ nm body =>
      "except" ++ (match typ with | some t => " " ++ t.unparse | none => "") ++
        (match nm with | some s => " as " ++ s | none => "") ++ ":\n" ++
        indent4 (Py.unparseBlock body)
  | .pyName id => id
  | .attrAccess value attr => value.unparse ++ "." ++ attr
  | .intConst n => toString n
  | .strConst s => "\x27" ++ s ++ "\x27"
  | .call func args keywords =>
      func.unparse ++ "(" ++
        String.intercalate ", " (Py.unparseList args ++ Py.unparseList keywords) ++ ")"
  | .keyword arg value => arg ++ "=" ++ value.unparse

def Py.unparseList : List Py → List String
  | [] => []
  | x :: xs => x.unparse :: Py.unparseList xs

def Py.unparseBlock : List Py → String
  | [] => ""
  | [x] => x.unparse
  | x :: xs => x.unparse ++ "\n" ++ Py.unparseBlock xs

end

/-! ## Declaration helpers -/

/-- `isinstance(node, (ast.FunctionDef, ast.ClassDef))` — note this excludes
`ast.AsyncFunctionDef`, exactly as `get_parent_function_or_class` does. -/
def isSyncFnOrClass : Py → Bool
  | .functionDef _ _ _ _ => true
  | .classDef _ _ _ => true
  | _ => false

/-- `isinstance(node, (ast.FunctionDef, ast.AsyncFunctionDef, ast.ClassDef))`. -/
def isDeclNode : Py → Bool
  | .functionDef _ _ _ _ => true
  | .asyncFunctionDef _ _ _ _ => true
  | .classDef _ _ _ => true
  | _ => false

/-- The `.name` attribute of a declaration node (only ever read on
declaration nodes; other nodes have no such attribute). -/
def declName : Py → String
  | .functionDef name _ _ _ => name
  | .asyncFunctionDef name _ _ _ => name
  | .classDef name _ _ => name
  | _ => ""

/-- The statement list of a node's body (for `ast.get_docstring`). -/
def bodyOf : Py → List Py
  | .module body => body
  | .functionDef _ _ body _ => body
  | .asyncFunctionDef _ _ body _ => body
  | .classDef _ _ body => body
  | _ => []

/-- `ast.get_docstring(node)`: the string constant that is the first
statement of the body, if any (docstring cleaning is not modelled). -/
def getDocstring (t : Py) : Option String :=
  match bodyOf t with
  | .exprStmt (.strConst s) :: _ => some s
  | _ => none

/-! ## `seppy.analyzers.extract_decorator` (analyzers.py lines 104-117)

A bare name yields the name; a call with a name callee yields the callee
followed by positional arguments then `kw=value` pairs; a call with an
attribute callee yields the unparsed callee followed by the positional
arguments only (the source omits `decorator.keywords` in this branch); an
attribute yields its dotted path; anything else falls through to
`ast.unparse`. -/
def extract_decorator (decorator : Py) : String :=
  match decorator with
  | .pyName id => id
  | .call (.pyName fid) args keywords =>
      let argStrs := Py.unparseList args
      let kwargStrs := keywords.map (fun kw =>
        match kw with
        | .keyword a v => a ++ "=" ++ v.unparse
        | other => other.unparse)
      fid ++ "(" ++ String.intercalate ", " (argStrs ++ kwargStrs) ++ ")"
  | .call (.attrAccess v a) args _keywords =>
      (Py.attrAccess v a).unparse ++ "(" ++
        String.intercalate ", " (Py.unparseList args) ++ ")"
  | .attrAccess v a => (Py.attrAccess v a).unparse
  | other => other.unparse

/-! ## Dependency graph (`core.py` `Seppy._analyze_dependencies`)

`self.dependencies_graph` is a `defaultdict(set)`; we model it as an
association list from names to duplicate-free lists of names (the spec:
"insertion order irrelevant" — only membership is observable). -/

def Graph : Type := List (String × List String)

def emptyGraph : Graph := []

/-- `graph[k]` (a `defaultdict(set)` read; missing key reads as empty). -/
def lookupEdges : Graph → String → List String
  | [], _ => []
  | (k0, vs) :: rest, k => if k0 = k then vs else lookupEdges rest k

/-- `graph[k].add(v)`. -/
def addEdge : Graph → String → String → Graph
  | [], k, v => [(k, [v])]
  | (k0, vs) :: rest, k, v =>
      if k0 = k then (k0, if v ∈ vs then vs else vs ++ [v]) :: rest
      else (k0, vs) :: addEdge rest k v

/-- `seppy.analyzers.get_parent_function_or_class` (analyzers.py lines
37-44): scan `ast.walk(tree)` for the first `FunctionDef`/`ClassDef` whose
own `ast.walk` contains the node, and return its name.  Because `ast.walk`
is breadth-first, the match is the shallowest (outermost) such node — which
may be the node itself. -/
def get_parent_function_or_class (node tree : Py) : Option String :=
  (tree.walk.find? (fun parent => isSyncFnOrClass parent && (parent.walk).contains node)).map declName

/-- One step of the call-edge loop inside `_analyze_dependencies` (core.py
lines 144-150): a call with a name callee records the callee id, a call whose
callee is an attribute of a plain name records the base name. -/
def recordCallEdge (owner : String) (acc : Graph) (child : Py) : Graph :=
  match child with
  | .call (.pyName fid) _ _ => addEdge acc owner fid
  | .call (.attrAccess (.pyName base) _) _ _ => addEdge acc owner base
  | _ => acc

/-- The body of the `if isinstance(node, (FunctionDef, AsyncFunctionDef,
ClassDef))` branch of `Seppy._analyze_dependencies` (core.py lines 137-150):
record the nesting edge for `node`, then record one edge per call expression
found anywhere in `node`'s subtree. -/
def processDeclNode (tree : Py) (g : Graph) (node : Py) : Graph :=
  if isDeclNode node then
    let g1 :=
      match get_parent_function_or_class node tree with
      | some parent => addEdge g parent (declName node)
      | none => g
    (node.walk).foldl (recordCallEdge (declName node)) g1
  else g

/-- `Seppy._analyze_dependencies` (core.py lines 135-150), starting from the
fresh instance's empty graph. -/
def analyzeDependencies (tree : Py) : Graph :=
  (tree.walk).foldl (processDeclNode tree) emptyGraph

/-! ## Generic dict / set helpers

CPython dict assignment `d[k] = v`: replace in place if the key exists
(keeping its position), else append.  CPython set `s.add(x)`: membership is
the only observable we rely on; we keep first-insertion order. -/

def insertAssoc {α : Type} : List (String × α) → String → α → List (String × α)
  | [], k, v => [(k, v)]
  | (k0, v0) :: rest, k, v =>
      if k0 = k then (k0, v) :: rest else (k0, v0) :: insertAssoc rest k v

def lookupAssoc {α : Type} : List (String × α) → String → Option α
  | [], _ => none
  | (k0, v0) :: rest, k => if k0 = k then some v0 else lookupAssoc rest k

def insertSet (l : List String) (x : String) : List String :=
  if x ∈ l then l else l ++ [x]

/-- Boolean list-prefix test. -/
def isPrefixChars : List Char → List Char → Bool
  | [], _ => true
  | _ :: _, [] => false
  | a :: as, b :: bs => a == b && isPrefixChars as bs

/-- Boolean contiguous-sublist test. -/
def isInfixChars (sub : List Char) : List Char → Bool
  | [] => sub.isEmpty
  | c :: rest => isPrefixChars sub (c :: rest) || isInfixChars sub rest

/-- Python's `x in s` substring test: `sub` occurs contiguously in `s`. -/
def strContainsSub (s sub : String) : Bool := isInfixChars sub.data s.data

/-- Python's `str.startswith`. -/
def strStartsWith (s p : String) : Bool := isPrefixChars p.data s.data

/-- Python's `str.endswith`. -/
def strEndsWith (s p : String) : Bool := isPrefixChars p.data.reverse s.data.reverse

/-- Python's `str.lower` (ASCII identifiers only, which is all the engine
lowercases). -/
def pyLower (s : String) : String := ⟨s.data.map Char.toLower⟩

/-- Drop the last `n` characters. -/
def dropRightStr (s : String) (n : Nat) : String := ⟨s.data.take (s.data.length - n)⟩

/-- `str.split(sep)` for a one-character separator: every occurrence splits,
adjacent separators produce empty fields. -/
def splitCharsOn (sep : Char) : List Char → List (List Char)
  | [] => [[]]
  | c :: rest =>
      let r := splitCharsOn sep rest
      if c == sep then [] :: r
      else
        match r with
        | [] => [[c]]
        | w :: ws => (c :: w) :: ws

def splitStrOn (sep : Char) (s : String) : List String :=
  (splitCharsOn sep s.data).map (fun w => ⟨w⟩)

/-- Python's `str.isupper`: at least one cased character and no lowercase
cased character (identifiers only contain letters, digits, underscores). -/
def pyIsUpper (s : String) : Bool :=
  s.data.any Char.isAlpha && s.data.all (fun c => !c.isAlpha || c.isUpper)

/-! ## The fact table (`analyze_complex_structures`, analyzers.py lines 46-465)

The `structures` dict is embedded as a record.  Fields whose only writers
involve constructs outside the fragment are still present when the
synthesizer reads them (they are constantly empty); fields that nothing
downstream reads (`property_decorators`, `static_methods`, `class_methods`,
`abstract_methods`, `decorators_with_args`, `annotations`, `type_comments`,
`is_generator`/`has_async_with`/`has_async_for` flags) are omitted, as are
the categories whose syntax the fragment excludes entirely (comprehensions,
generators, lambdas, `match`, `with`, async blocks, yields, awaits,
f-strings, walrus operators, nested classes). -/

structure NestedInfo where
  isAsync : Bool
  args : List String
  decorators : List String
  docstring : Option String
  body : List Py
  node : Py
  /-- `ast.unparse(child.returns) if child.returns else None` — `none` when
  the nested function has no return annotation (always, in the fragment). -/
  returns : Option String

structure FuncInfo where
  args : List String
  /-- `f" -> {...}" if n.returns else ""` — `""` in the fragment. -/
  returns : String
  decorators : List String
  isAsync : Bool
  body : List Py
  docstring : Option String
  nestedFunctions : List (String × NestedInfo)
  node : Py

structure MethodInfo where
  name : String
  decorators : List String
  body : List Py
  node : Py
  args : List String
  returns : Option String
  /-- The analyzer never stores a docstring for class methods (analyzers.py
  lines 306-329), so the synthesizer's `method.get('docstring')` always
  misses; kept as a constantly-`none` field. -/
  docstring : Option String := none

structure ClassVarInfo where
  name : String
  typ : String
  value : Option String

structure DataclassFieldInfo where
  typ : String
  default : Option String
  metadata : List (String × String)

structure ClassInfo where
  methods : List MethodInfo
  asyncMethods : List MethodInfo
  bases : List String
  decorators : List String
  classVars : List ClassVarInfo
  docstring : Option String
  metaclass : Option String
  node : Py
  isDataclass : Bool
  isProtocol : Bool

structure TryHandlerInfo where
  typ : Option String
  nm : Option String
  body : List String

structure TryBlockInfo where
  body : List String
  handlers : List TryHandlerInfo
  finallyBody : Option (List String)
  elseBody : Option (List String)

/-- The non-recursive part of the analyzer's fact table (every key of the
`structures` dict except `'nested_classes'`). -/
structure StructuresBase where
  /-- Import statements rendered back to text; the fragment contains no
  `import` nodes, so this is always empty here. -/
  imports : List String := []
  /-- The `'globals'` key is initialised to an empty set and never written
  anywhere in analyzers.py (the writers target `'global_vars'`), yet it is
  what `_split_into_modules` copies into `ModuleInfo.global_vars`. -/
  globals : List String := []
  functions : List (String × FuncInfo) := []
  asyncFunctions : List (String × FuncInfo) := []
  classes : List (String × ClassInfo) := []
  decorators : List String := []
  source : String := ""
  assignments : List (String × String) := []
  constants : List (String × String) := []
  /-- From annotated assignments — none exist in the fragment. -/
  typeAliases : List (String × String) := []
  genericTypes : List (String × String) := []
  typeVars : List (String × List String) := []
  /-- The write path for `'protocols'` dereferences the nonexistent
  `n.parent` attribute and therefore raises before storing anything, so this
  is empty in every successful analysis. -/
  protocols : List (String × Bool) := []
  dataclasses : List (String × DataclassFieldInfo) := []
  globalVars : List String := []
  nonlocalVars : List String := []
  tryBlocks : List TryBlockInfo := []

/-- The analyzer's fact table.  The `'nested_classes'` key (written by
analyzers.py line 364) maps each class found as a *direct body item* of some
class in the walk to a full recursive `analyze_complex_structures` result,
making the table a recursive structure. -/
inductive Structures where
  | mk (base : StructuresBase) (nestedClasses : List (String × Structures))

def Structures.base : Structures → StructuresBase
  | .mk b _ => b

def Structures.nestedClasses : Structures → List (String × Structures)
  | .mk _ ns => ns

def Structures.imports (s : Structures) : List String := s.base.imports

def Structures.globals (s : Structures) : List String := s.base.globals

def Structures.functions (s : Structures) : List (String × FuncInfo) := s.base.functions

def Structures.asyncFunctions (s : Structures) : List (String × FuncInfo) := s.base.asyncFunctions

def Structures.classes (s : Structures) : List (String × ClassInfo) := s.base.classes

def Structures.source (s : Structures) : String := s.base.source

/-- Does the subtree contain a call to `Protocol` or `runtime_checkable`?
Such a call makes analyzers.py line 152 evaluate `n.parent`, an attribute
CPython `ast` nodes do not have, raising
`AttributeError: 'Call' object has no attribute 'parent'`. -/
def hasProtocolCall (node : Py) : Bool :=
  (node.walk).any (fun n =>
    match n with
    | .call (.pyName fid) _ _ => fid == "Protocol" || fid == "runtime_checkable"
    | _ => false)

/-- The per-function record built by the functions loop (analyzers.py lines
159-292), restricted to the fragment (plain parameters, no annotations, no
defaults). -/
def funcInfoOf (n : Py) : Option (String × FuncInfo) :=
  match n with
  | .functionDef name args body decoratorList =>
      some (name,
        { args := args, returns := "",
          decorators := decoratorList.map extract_decorator,
          isAsync := false, body := body, docstring := getDocstring n,
          nestedFunctions := nestedFunctionsOf n, node := n })
  | .asyncFunctionDef name args body decoratorList =>
      some (name,
        { args := args, returns := "",
          decorators := decoratorList.map extract_decorator,
          isAsync := true, body := body, docstring := getDocstring n,
          nestedFunctions := nestedFunctionsOf n, node := n })
  | _ => none
where
  /-- analyzers.py lines 259-271: every descendant function (`child is not
  n`; identity coincides with structural equality here because a proper
  subtree is strictly smaller than its tree). -/
  nestedFunctionsOf (n : Py) : List (String × NestedInfo) :=
    ((n.walk).filterMap (fun child =>
      if child.beq n then none
      else
        match child with
        | .functionDef nm args body decoratorList =>
            some (nm,
              { isAsync := false, args := args,
                decorators := decoratorList.map extract_decorator,
                docstring := getDocstring child, body := body, node := child,
                returns := none })
        | .asyncFunctionDef nm args body decoratorList =>
            some (nm,
              { isAsync := true, args := args,
                decorators := decoratorList.map extract_decorator,
                docstring := getDocstring child, body := body, node := child,
                returns := none })
        | _ => none)).foldl (fun acc (p : String × NestedInfo) => insertAssoc acc p.1 p.2) []

/-- The per-class record built by the classes loop (analyzers.py lines
295-395), restricted to the fragment (classes carry no decorators and no
keyword arguments, and contain no annotated assignments, so `class_vars`,
`metaclass` and `is_dataclass` take their degenerate values). -/
def classInfoOf (n : Py) : Option (String × ClassInfo) :=
  match n with
  | .classDef name bases body =>
      let methods := body.filterMap (fun item =>
        match item with
        | .functionDef nm args mbody decoratorList =>
            some { name := nm, decorators := decoratorList.map extract_decorator,
                   body := mbody, node := item, args := args, returns := none }
        | _ => none)
      let asyncMethods := body.filterMap (fun item =>
        match item with
        | .asyncFunctionDef nm args mbody decoratorList =>
            some { name := nm, decorators := decoratorList.map extract_decorator,
                   body := mbody, node := item, args := args, returns := none }
        | _ => none)
      let baseStrs := bases.map (fun b =>
        match b with
        | .pyName id => id
        | other => other.unparse)
      some (name,
        { methods := methods, asyncMethods := asyncMethods, bases := baseStrs,
          decorators := [], classVars := [], docstring := getDocstring n,
          metaclass := none, node := n, isDataclass := false,
          isProtocol := baseStrs.any (fun b => b == "Protocol") })
  | _ => none

/-- One recorded `try` block (analyzers.py lines 440-451). -/
def tryBlockOf (n : Py) : Option TryBlockInfo :=
  match n with
  | .tryStmt body handlers orelse finalbody =>
      some { body := body.map Py.unparse,
             handlers := handlers.filterMap (fun h =>
               match h with
               | .exceptHandler typ nm hbody =>
                   some { typ := typ.map Py.unparse, nm := nm,
                          body := hbody.map Py.unparse }
               | _ => none),
             finallyBody := if finalbody.isEmpty then none else some (finalbody.map Py.unparse),
             elseBody := if orelse.isEmpty then none else some (orelse.map Py.unparse) }
  | _ => none

def isClassDefNode : Py → Bool
  | .classDef _ _ _ => true
  | _ => false

/-- The non-recursive keys of the fact table
(`seppy.analyzers.analyze_complex_structures`, analyzers.py lines 46-465) on
the fragment. -/
def analyzeBase (node : Py) (source_code : String) : StructuresBase :=
    let w := node.walk
    let fnNodes := w.filter (fun n =>
      match n with
      | .functionDef _ _ _ _ => true
      | .asyncFunctionDef _ _ _ _ => true
      | _ => false)
    let fnPairs := w.filterMap funcInfoOf
    let classPairs := w.filterMap classInfoOf
    {
      imports := []
      globals := []
      functions := (fnPairs.filter (fun p => !p.2.isAsync)).foldl
        (fun acc (p : String × FuncInfo) => insertAssoc acc p.1 p.2) []
      asyncFunctions := (fnPairs.filter (fun p => p.2.isAsync)).foldl
        (fun acc (p : String × FuncInfo) => insertAssoc acc p.1 p.2) []
      classes := classPairs.foldl
        (fun acc (p : String × ClassInfo) => insertAssoc acc p.1 p.2) []
      decorators := ((fnPairs.map (fun p => p.2.decorators)).flatten ++
        (classPairs.map (fun p => p.2.decorators)).flatten).foldl insertSet []
      source := source_code
      assignments := w.filterMap (fun n =>
        match n with
        | .assign target value =>
            if pyIsUpper target then none else some (target, value.unparse)
        | _ => none)
      constants := (w.filterMap (fun n =>
        match n with
        | .assign target value =>
            if pyIsUpper target then some (target, value.unparse) else none
        | _ => none)).foldl (fun acc (p : String × String) => insertAssoc acc p.1 p.2) []
      typeAliases := []
      genericTypes := []
      typeVars := (w.filterMap (fun n =>
        match n with
        | .call (.pyName fid) args _ =>
            if fid == "TypeVar" && !args.isEmpty then
              some ((args.headD Py.passStmt).unparse, (args.tailD []).map Py.unparse)
            else none
        | _ => none)).foldl (fun acc (p : String × List String) => insertAssoc acc p.1 p.2) []
      protocols := []
      dataclasses := []
      globalVars := (fnNodes.flatMap (fun n => n.walk.flatMap (fun c =>
        match c with
        | .globalStmt ns => ns
        | _ => []))).foldl insertSet []
      nonlocalVars := (fnNodes.flatMap (fun n => n.walk.flatMap (fun c =>
        match c with
        | .nonlocalStmt ns => ns
        | _ => []))).foldl insertSet []
      tryBlocks := w.filterMap tryBlockOf
    }

/-- The recursive `structures['nested_classes'][item.name] =
analyze_complex_structures(item, source_code)` writes (analyzers.py lines
363-364), one per class found as a direct body item of some class in the
walk, in walk order of the enclosing class and body order within it;
`go` is the recursive analysis and an exception it raises propagates. -/
def runNested (go : Py → String → Except String Structures) (src : String) :
    List Py → Except String (List (String × Structures))
  | [] => Except.ok []
  | c :: rest =>
      match go c src with
      | .error e => .error e
      | .ok s =>
          match runNested go src rest with
          | .error e => .error e
          | .ok ps => .ok ((declName c, s) :: ps)

/-- One layer of `seppy.analyzers.analyze_complex_structures` (analyzers.py
lines 46-465), parameterised by the recursive call used for nested classes.
The loops run in source order; the type-variable/protocol loop (lines
143-156) precedes the function and class loops, and a call to
`Protocol`/`runtime_checkable` raises `AttributeError` there, aborting the
whole analysis with nothing recorded — a nested class with such a call is in
the outer walk too, so the outer check dominates every nested one. -/
def analyzeCore (go : Py → String → Except String Structures) (node : Py)
    (source_code : String) : Except String Structures :=
  if hasProtocolCall node then
    Except.error "\x27Call\x27 object has no attribute \x27parent\x27"
  else
    match runNested go source_code ((node.walk).flatMap (fun n =>
      match n with
      | .classDef _ _ body => body.filter isClassDefNode
      | _ => [])) with
    | .error e => .error e
    | .ok nestedPairs =>
        Except.ok (Structures.mk (analyzeBase node source_code)
          (nestedPairs.foldl
            (fun acc (p : String × Structures) => insertAssoc acc p.1 p.2) []))

/-- Fuel-indexed recursion for the nested-class analysis.  Each recursive
call descends to a strict subtree of the analysed node, so the nesting depth
is strictly below the node count of the original node; the initial fuel
`node.psize` therefore always suffices and the fuel-exhaustion branch is
unreachable from `analyze_complex_structures`. -/
def analyzeFuel : Nat → Py → String → Except String Structures
  | 0, _, _ => Except.error "maximum recursion depth exceeded"
  | fuel + 1, node, src => analyzeCore (analyzeFuel fuel) node src

/-- `seppy.analyzers.analyze_complex_structures` (analyzers.py lines
46-465). -/
def analyze_complex_structures (node : Py) (source_code : String) :
    Except String Structures :=
  analyzeFuel node.psize node source_code

/-! ## `seppy.processors.organize_imports` (processors.py lines 13-43) -/

def organize_imports (imports : List String) : String :=
  let sorted := imports.mergeSort (fun a b => a ≤ b)
  let isDotted := fun (imp : String) => (imp.splitOn ".").length > 1
  let stdlibImports := sorted.filter (fun imp => !isDotted imp)
  let dotted := sorted.filter isDotted
  let localImports := dotted.filter (fun imp => ((imp.splitOn ".").headD "").startsWith "_")
  let thirdParty := dotted.filter (fun imp => !((imp.splitOn ".").headD "").startsWith "_")
  let renderFrom := fun (imp : String) =>
    let parts := imp.splitOn "."
    "from " ++ parts.headD "" ++ " import " ++ String.intercalate "." parts.tail
  let s1 :=
    if stdlibImports.isEmpty then ""
    else String.intercalate "\n" (stdlibImports.map (fun imp => "import " ++ imp)) ++ "\n"
  let s2 :=
    if thirdParty.isEmpty then ""
    else (if stdlibImports.isEmpty then "" else "\n") ++
      String.intercalate "\n" (thirdParty.map renderFrom) ++ "\n"
  let s3 :=
    if localImports.isEmpty then ""
    else (if stdlibImports.isEmpty && thirdParty.isEmpty then "" else "\n") ++
      String.intercalate "\n" (localImports.map renderFrom)
  s1 ++ s2 ++ s3

/-! ## `seppy.processors.create_complex_module` (processors.py lines 383-703)

`ast.get_source_segment(source, node)` is stdlib code external to the
repository.  It returns `None` only when the node carries no usable position
attributes (`lineno`/`col_offset`/… missing or `None` — nodes constructed by
hand rather than by the parser); otherwise it indexes the source's line list
with the node's positions, so it returns the exact original text span when
the source matches, and *raises* `IndexError` when the positions point
outside the text — in particular, every parser-positioned node (whose
`lineno` is at least 1) raises `IndexError: list index out of range` against
the empty source, the fallback `source_code = ""` of `_split_into_modules`
when the file cannot be re-read.  We model the slicing as an oracle
`σ : String → Py → Except String (Option String)` and hard-wire the
empty-source `IndexError`, which no node of this embedding (all its nodes
stand for parser output) escapes.  A `KeyError` raised by the two bare dict
subscripts (lines 450 and 554) is an `Except.error`. -/

def getSourceSegment (σ : String → Py → Except String (Option String))
    (source : String) (node : Py) : Except String (Option String) :=
  if source = "" then Except.error "list index out of range" else σ source node

/-- Render one recorded handler of a stored `try` block (processors.py lines
669-673): with a type present the code emits
`f"except {handler['type']} as {handler['name']}:"`, interpolating the
handler name `None` literally when the source had no `as` binding. -/
def renderHandler (h : TryHandlerInfo) : List String :=
  (match h.typ with
   | some t => ["except " ++ t ++ " as " ++ (match h.nm with | some nm => nm | none => "None") ++ ":"]
   | none => ["except:"]) ++ h.body.map (fun line => "    " ++ line)

/-- Render one stored `try` block (processors.py lines 664-685). -/
def renderTryBlock (tb : TryBlockInfo) : List String :=
  ["try:"] ++ tb.body.map (fun line => "    " ++ line) ++
    tb.handlers.flatMap renderHandler ++
    (match tb.elseBody with
     | some ls => ["else:"] ++ ls.map (fun line => "    " ++ line)
     | none => []) ++
    (match tb.finallyBody with
     | some ls => ["finally:"] ++ ls.map (fun line => "    " ++ line)
     | none => [])

/-- The trailing sections of `create_complex_module` (processors.py lines
619-701): on the fragment only the stored `try` blocks contribute
(comprehensions, generators, lambdas, `match`, `with`, async blocks,
yields, awaits, f-strings and type comments cannot occur). -/
def trailingParts (base : StructuresBase) : List String :=
  base.tryBlocks.flatMap renderTryBlock

/-- One method of the class fallback (processors.py lines 492-545): the
stored node is always truthy, so the slice is always attempted (and a raised
`IndexError` propagates); on a recovered span the indented span is emitted,
otherwise the method is reconstructed. -/
def renderMethodExc (σ : String → Py → Except String (Option String))
    (source : String) (asyncKw : String) (m : MethodInfo) :
    Except String (List String) :=
  let decos := m.decorators.map (fun d => "    @" ++ d)
  match getSourceSegment σ source m.node with
  | .error e => .error e
  | .ok (some srcText) => .ok (decos ++ [indent4 srcText])
  | .ok none =>
      let args := "self" :: m.args
      let returns := match m.returns with | some r => " -> " ++ r | none => ""
      .ok (decos ++
        ["    " ++ asyncKw ++ "def " ++ m.name ++ "(" ++ String.intercalate ", " args ++ ")" ++ returns ++ ":"] ++
        (match m.docstring with
         | some d => ["        \"\"\"" ++ d ++ "\"\"\""]
         | none => []) ++
        (if m.body.isEmpty then ["        raise NotImplementedError"]
         else m.body.map (fun stmt => "        " ++ stmt.unparse)))

def renderMethodsExc (σ : String → Py → Except String (Option String))
    (source : String) (asyncKw : String) : List MethodInfo → Except String (List String)
  | [] => .ok []
  | m :: rest =>
      match renderMethodExc σ source asyncKw m with
      | .error e => .error e
      | .ok ls =>
          match renderMethodsExc σ source asyncKw rest with
          | .error e => .error e
          | .ok ls2 => .ok (ls ++ ls2)

/-- The class fallback reconstruction (processors.py lines 449-546),
without the nested-class recursion of lines 547-550 (handled by the
caller). -/
def classFallbackParts (σ : String → Py → Except String (Option String)) (node : Py)
    (base : StructuresBase) (classInfo : ClassInfo) : Except String (List String) :=
  let decoParts := classInfo.decorators.map (fun d => "@" ++ d)
  let basesStr :=
    match classInfo.metaclass with
    | some m =>
        if classInfo.bases.isEmpty then "(metaclass=" ++ m ++ ")"
        else "(" ++ String.intercalate ", " classInfo.bases ++ ", metaclass=" ++ m ++ ")"
    | none =>
        if classInfo.bases.isEmpty then ""
        else "(" ++ String.intercalate ", " classInfo.bases ++ ")"
  let protocolParts :=
    if classInfo.isProtocol then
      [if ((lookupAssoc base.protocols (declName node)).getD false) then "@runtime_checkable" else ""]
    else []
  let headerParts := [ "class " ++ declName node ++ basesStr ++ ":" ]
  let docParts :=
    match classInfo.docstring with
    | some d => ["    \"\"\"" ++ d ++ "\"\"\""]
    | none => []
  let dataclassParts :=
    if classInfo.isDataclass then
      base.dataclasses.map (fun (p : String × DataclassFieldInfo) =>
        let b := "    " ++ p.1 ++ ": " ++ p.2.typ
        let withDefault :=
          match p.2.default with
          | some v => b ++ " = " ++ v
          | none => b
        match p.2.metadata with
        | [] => withDefault
        | md => withDefault ++ " = field(" ++
            String.intercalate ", " (md.map (fun kv => kv.1 ++ "=" ++ kv.2)) ++ ")")
    else []
  let classVarParts := classInfo.classVars.map (fun v =>
    match v.value with
    | some value => "    " ++ v.name ++ ": " ++ v.typ ++ " = " ++ value
    | none => "    " ++ v.name ++ ": " ++ v.typ)
  match renderMethodsExc σ base.source "" classInfo.methods with
  | .error e => .error e
  | .ok methodParts =>
      match renderMethodsExc σ base.source "async " classInfo.asyncMethods with
      | .error e => .error e
      | .ok asyncMethodParts =>
          .ok (decoParts ++ protocolParts ++ headerParts ++ docParts ++
            dataclassParts ++ classVarParts ++ methodParts ++ asyncMethodParts)

/-- The nested-function additions of the early-return slice path
(processors.py lines 566-571): slice each stored nested node — a raised
`IndexError` propagates — and append `"\n" + nested_source` on success,
nothing on `None`. -/
def nestedSliceParts (σ : String → Py → Except String (Option String))
    (source : String) : List (String × NestedInfo) → Except String (List String)
  | [] => .ok []
  | p :: rest =>
      match getSourceSegment σ source p.2.node with
      | .error e => .error e
      | .ok osrc =>
          match nestedSliceParts σ source rest with
          | .error e => .error e
          | .ok ps =>
              .ok ((match osrc with | some s => ["\n" ++ s] | none => []) ++ ps)

/-- One nested function of the function fallback (processors.py lines
590-617): a blank separator line, the decorators, then the indented slice of
the stored node (a raised `IndexError` propagates) or the regenerated stub —
whose missing return annotation is interpolated as the literal text `None`,
exactly as the f-string on line 608 does. -/
def nestedFnFallbackPart (σ : String → Py → Except String (Option String))
    (source : String) (p : String × NestedInfo) : Except String (List String) :=
  let ni := p.2
  let decos := ni.decorators.map (fun d => "    @" ++ d)
  match getSourceSegment σ source ni.node with
  | .error e => .error e
  | .ok (some srcText) => .ok ([""] ++ decos ++ [indent4 srcText])
  | .ok none =>
      let niAsync := if ni.isAsync then "async " else ""
      let niReturns := match ni.returns with | some r => r | none => "None"
      .ok ([""] ++ decos ++
        ["    " ++ niAsync ++ "def " ++ p.1 ++ "(" ++
          String.intercalate ", " ni.args ++ ")" ++ niReturns ++ ":"] ++
        (match ni.docstring with
         | some d => ["        \"\"\"" ++ d ++ "\"\"\""]
         | none => []) ++
        (if ni.body.isEmpty then ["        raise NotImplementedError"]
         else ni.body.map (fun stmt => "        " ++ stmt.unparse)))

def nestedFnFallbackParts (σ : String → Py → Except String (Option String))
    (source : String) : List (String × NestedInfo) → Except String (List String)
  | [] => .ok []
  | p :: rest =>
      match nestedFnFallbackPart σ source p with
      | .error e => .error e
      | .ok ls =>
          match nestedFnFallbackParts σ source rest with
          | .error e => .error e
          | .ok ls2 => .ok (ls ++ ls2)

/-- The function fallback reconstruction (processors.py lines 574-617),
without the early-return inner-slice path (handled by the caller): the
signature, docstring, body, and each nested function. -/
def functionFallbackParts (σ : String → Py → Except String (Option String)) (node : Py)
    (base : StructuresBase) (funcInfo : FuncInfo) : Except String (List String) :=
  let asyncPrefix := if funcInfo.isAsync then "async " else ""
  let headerParts :=
    [asyncPrefix ++ "def " ++ declName node ++ "(" ++
      String.intercalate ", " funcInfo.args ++ ")" ++ funcInfo.returns ++ ":"]
  let docParts :=
    match funcInfo.docstring with
    | some d => ["    \"\"\"" ++ d ++ "\"\"\""]
    | none => []
  let bodyParts :=
    if funcInfo.body.isEmpty then ["    raise NotImplementedError"]
    else funcInfo.body.map (fun stmt => "    " ++ stmt.unparse)
  match nestedFnFallbackParts σ base.source funcInfo.nestedFunctions with
  | .error e => .error e
  | .ok nestedParts => .ok (headerParts ++ docParts ++ bodyParts ++ nestedParts)

/-- The leading sections of `create_complex_module` (processors.py lines
385-422): type aliases, generic types, type variables, constants, organised
imports, `global`/`nonlocal` declarations and assignments (walrus operators
cannot occur in the fragment). -/
def prefixPartsOf (base : StructuresBase) : List String :=
  base.typeAliases.map (fun (p : String × String) => p.1 ++ ": " ++ p.2) ++
  base.genericTypes.map (fun (p : String × String) => p.1 ++ " = " ++ p.2) ++
  base.typeVars.map (fun (p : String × List String) =>
    if p.2.isEmpty then p.1 ++ " = TypeVar(\x27" ++ p.1 ++ "\x27)"
    else p.1 ++ " = TypeVar(\x27" ++ p.1 ++ "\x27, " ++ String.intercalate ", " p.2 ++ ")") ++
  base.constants.map (fun (p : String × String) => p.1 ++ " = " ++ p.2) ++
  (if base.imports.isEmpty then [] else [organize_imports base.imports]) ++
  base.globalVars.map (fun v => "global " ++ v) ++
  base.nonlocalVars.map (fun v => "nonlocal " ++ v) ++
  base.assignments.map (fun (p : String × String) => p.1 ++ " = " ++ p.2)

mutual

/-- `seppy.processors.create_complex_module` (processors.py lines 383-703).
Both class paths end by recursing over the table's `nested_classes` entries
(lines 443-446 and 547-550), each recursive call passing the *outer* `node`
together with the nested class's own fact table — the source's recursion
never substitutes the nested class's node. -/
def create_complex_module (σ : String → Py → Except String (Option String))
    (name : String) (node : Py) (structures : Structures) : Except String String :=
  match structures with
  | .mk base nested =>
    let prefixParts := prefixPartsOf base
    if isDeclNode node then
      match getSourceSegment σ base.source node with
      | .error e => .error e
      | .ok (some sourceLines) =>
          -- slice path (processors.py lines 428-446)
          let decorators :=
            match node with
            | .classDef _ _ _ => ((lookupAssoc base.classes (declName node)).map
                (fun (ci : ClassInfo) => ci.decorators)).getD []
            | .asyncFunctionDef _ _ _ _ => ((lookupAssoc base.asyncFunctions (declName node)).map
                (fun (fi : FuncInfo) => fi.decorators)).getD []
            | _ => ((lookupAssoc base.functions (declName node)).map
                (fun (fi : FuncInfo) => fi.decorators)).getD []
          let decoParts :=
            if !decorators.isEmpty && !decorators.any (fun d => strContainsSub sourceLines d) then
              decorators.map (fun d => "@" ++ d)
            else []
          (match node with
           | .classDef _ _ _ =>
               -- lines 443-446: nested classes after the main class
               match createNestedParts σ node nested with
               | .error e => .error e
               | .ok nestedParts =>
                   .ok (String.intercalate "\n"
                     (prefixParts ++ decoParts ++ [sourceLines] ++ nestedParts ++
                       trailingParts base))
           | _ =>
               .ok (String.intercalate "\n"
                 (prefixParts ++ decoParts ++ [sourceLines] ++ trailingParts base)))
      | .ok none =>
          match node with
          | .classDef _ _ _ =>
              -- class fallback; bare subscript may raise KeyError (line 450)
              match lookupAssoc base.classes (declName node) with
              | none => Except.error ("KeyError: \x27" ++ declName node ++ "\x27")
              | some classInfo =>
                  match classFallbackParts σ node base classInfo with
                  | .error e => .error e
                  | .ok fbParts =>
                      -- lines 547-550: nested classes after the fallback body
                      match createNestedParts σ node nested with
                      | .error e => .error e
                      | .ok nestedParts =>
                          .ok (String.intercalate "\n"
                            (prefixParts ++ fbParts ++ nestedParts ++
                              trailingParts base))
          | _ =>
              -- function fallback; bare subscript may raise KeyError (line 554)
              let funcDict :=
                match node with
                | .asyncFunctionDef _ _ _ _ => base.asyncFunctions
                | _ => base.functions
              match lookupAssoc funcDict (declName node) with
              | none => Except.error ("KeyError: \x27" ++ declName node ++ "\x27")
              | some funcInfo =>
                  let decoParts := funcInfo.decorators.map (fun d => "@" ++ d)
                  -- lines 560-572: retry the slice through the stored node;
                  -- on success append nested sources and return early,
                  -- skipping the trailing sections
                  match getSourceSegment σ base.source funcInfo.node with
                  | .error e => .error e
                  | .ok (some bodySource) =>
                      (match nestedSliceParts σ base.source funcInfo.nestedFunctions with
                       | .error e => .error e
                       | .ok nestedParts =>
                           .ok (String.intercalate "\n"
                             (prefixParts ++ decoParts ++ [bodySource] ++ nestedParts)))
                  | .ok none =>
                      match functionFallbackParts σ node base funcInfo with
                      | .error e => .error e
                      | .ok fbParts =>
                          .ok (String.intercalate "\n"
                            (prefixParts ++ decoParts ++ fbParts ++
                              trailingParts base))
    else
      .ok (String.intercalate "\n" (prefixParts ++ trailingParts base))

/-- The nested-class recursion of `create_complex_module` (processors.py
lines 443-446 and 547-550): for each `nested_name, nested_struct` pair the
source calls `create_complex_module(nested_name, node, nested_struct)` —
with the outer `node` — and appends the indented result after a blank
line. -/
def createNestedParts (σ : String → Py → Except String (Option String))
    (node : Py) : List (String × Structures) → Except String (List String)
  | [] => .ok []
  | (nm, s) :: rest =>
      match create_complex_module σ nm node s with
      | .error e => .error e
      | .ok code =>
          match createNestedParts σ node rest with
          | .error e => .error e
          | .ok ps => .ok (("\n" ++ indent4 code) :: ps)

end

/-! ## Data model (`models.py`), configuration (`config.py`) and errors
(`exceptions.py`) -/

structure ModuleInfo where
  name : String
  code : String
  imports : List String
  globalVars : List String
  functions : List String
  classes : List String
  asyncFunctions : List String := []
  dependencies : List String := []
  docstring : Option String := none
  decorators : List String := []
  docs : String := ""
deriving DecidableEq

structure ProcessingStats where
  totalModules : Nat := 0
  processedModules : Nat := 0
  failedModules : Nat := 0
  cachedModules : Nat := 0
  errors : List String := []

structure SeppyConfig where
  ignorePatterns : List String
  memoryLimitMB : Nat
  maxThreads : Nat
  cacheEnabled : Bool
  reportFormat : String
  logLevel : String

/-- config.py lines 13-20.  Note the default ignore patterns are glob
patterns, but `_split_into_modules` matches them with `str.startswith`, and
no Python identifier starts with `*`, `_`&`_pycache` aside, or `.`. -/
def DEFAULT_CONFIG : SeppyConfig :=
  { ignorePatterns := ["*.pyc", "__pycache__/*", ".*"]
    memoryLimitMB := 1024
    maxThreads := 4
    cacheEnabled := true
    reportFormat := "md"
    logLevel := "INFO" }

/-- exceptions.py: every failure that escapes `parse_script` is re-raised as
this one type. -/
inductive SeppyError where
  | parseError (msg : String)
deriving DecidableEq

instance {ε α : Type} [DecidableEq ε] [DecidableEq α] : DecidableEq (Except ε α) := fun a b =>
  match a, b with
  | .ok x, .ok y =>
      if h : x = y then .isTrue (by rw [h]) else .isFalse (by intro hc; cases hc; exact h rfl)
  | .error x, .error y =>
      if h : x = y then .isTrue (by rw [h]) else .isFalse (by intro hc; cases hc; exact h rfl)
  | .ok _, .error _ => .isFalse (by intro hc; cases hc)
  | .error _, .ok _ => .isFalse (by intro hc; cases hc)

/-! ## The partitioner (`Seppy._split_into_modules`, core.py lines 152-206)
and `Seppy.parse_script` (core.py lines 99-133)

The declaration loops contain no per-unit `try`/`except`: any exception
raised while analysing or synthesising one declaration propagates out of
`_split_into_modules`, is caught by the blanket handler of `parse_script`,
and re-raised as `ParseError` — aborting the entire run. -/

/-- One iteration of the class loop of `_split_into_modules` (core.py lines
172-186): filter by ignore prefix, analyse, synthesize, store — with no
`try`/`except` around any of it. -/
def processClassDecl (σ : String → Py → Except String (Option String)) (ignorePatterns : List String)
    (sourceCode : String) (modules : List (String × ModuleInfo)) (classNode : Py) :
    Except String (List (String × ModuleInfo)) :=
  let className := pyLower (declName classNode)
  if !ignorePatterns.any (fun p => strStartsWith className p) then
    match analyze_complex_structures classNode sourceCode with
    | .error e => .error e
    | .ok structures =>
        match create_complex_module σ className classNode structures with
        | .error e => .error e
        | .ok code =>
            .ok (insertAssoc modules className
              { name := className, code := code,
                imports := structures.imports,
                globalVars := structures.globals,
                functions := structures.functions.map Prod.fst,
                classes := structures.classes.map Prod.fst,
                docstring := getDocstring classNode })
  else .ok modules

/-- One iteration of the function loop of `_split_into_modules` (core.py
lines 189-204). -/
def processFuncDecl (σ : String → Py → Except String (Option String)) (ignorePatterns : List String)
    (sourceCode : String) (modules : List (String × ModuleInfo)) (funcNode : Py) :
    Except String (List (String × ModuleInfo)) :=
  let funcName := pyLower (declName funcNode)
  if !ignorePatterns.any (fun p => strStartsWith funcName p) then
    match analyze_complex_structures funcNode sourceCode with
    | .error e => .error e
    | .ok structures =>
        match create_complex_module σ funcName funcNode structures with
        | .error e => .error e
        | .ok code =>
            .ok (insertAssoc modules funcName
              { name := funcName, code := code,
                imports := structures.imports,
                globalVars := structures.globals,
                functions := [declName funcNode],
                classes := [],
                asyncFunctions :=
                  (match funcNode with
                   | .asyncFunctionDef _ _ _ _ => [declName funcNode]
                   | _ => []),
                docstring := getDocstring funcNode })
  else .ok modules

def splitIntoModules (σ : String → Py → Except String (Option String)) (ignorePatterns : List String)
    (reread : Option String) (functions asyncFunctions classes : List Py) :
    Except String (List (String × ModuleInfo)) :=
  -- core.py lines 163-169: re-open the source file; on failure fall back to ""
  let sourceCode := reread.getD ""
  match classes.foldlM (processClassDecl σ ignorePatterns sourceCode)
      ([] : List (String × ModuleInfo)) with
  | .error e => .error e
  | .ok modules1 =>
      (functions ++ asyncFunctions).foldlM (processFuncDecl σ ignorePatterns sourceCode) modules1

/-- What `parse_script` works on: the source file fails to open or read, or
the text fails `ast.parse`, or parsing succeeds with tree `tree` (and
`reread` is the result of the second `open` performed by
`_split_into_modules`, `none` when that read fails). -/
inductive SourceInput where
  | unreadable (msg : String)
  | unparsable (msg : String)
  | parsed (tree : Py) (reread : Option String)

/-- `Seppy.parse_script` on a fresh instance: result, final statistics, and
final dependency graph.  Every exception inside the `try` block — the file
read, `ast.parse`, and the whole declaration loop — is mapped to
`ParseError(f"Failed to parse script: {e}")`; `self.modules` is only
assigned on success, and only `total_modules` is ever written to the
statistics. -/
def parse_script (σ : String → Py → Except String (Option String)) (ignorePatterns : List String)
    (inp : SourceInput) :
    Except SeppyError (List (String × ModuleInfo)) × ProcessingStats × Graph :=
  match inp with
  | .unreadable msg =>
      (Except.error (.parseError ("Failed to parse script: " ++ msg)), {}, emptyGraph)
  | .unparsable msg =>
      (Except.error (.parseError ("Failed to parse script: " ++ msg)), {}, emptyGraph)
  | .parsed tree reread =>
      let graph := analyzeDependencies tree
      let functions := tree.walk.filter (fun n =>
        match n with | .functionDef _ _ _ _ => true | _ => false)
      let asyncFunctions := tree.walk.filter (fun n =>
        match n with | .asyncFunctionDef _ _ _ _ => true | _ => false)
      let classes := tree.walk.filter (fun n =>
        match n with | .classDef _ _ _ => true | _ => false)
      match splitIntoModules σ ignorePatterns reread functions asyncFunctions classes with
      | .ok modules =>
          (Except.ok modules, { totalModules := modules.length }, graph)
      | .error msg =>
          (Except.error (.parseError ("Failed to parse script: " ++ msg)), {}, graph)

/-- `self.modules` of a fresh instance after `parse_script`: assigned only
when the call succeeds, otherwise still the empty dict from `__init__`. -/
def modulesAfter (result : Except SeppyError (List (String × ModuleInfo))) :
    List (String × ModuleInfo) :=
  match result with
  | .ok m => m
  | .error _ => []

/-! ## `seppy.processors.create_module_docs` (processors.py lines 50-381)

The function first runs `ast.parse(code)` (with an indentation-fix retry);
we abstract that stdlib step by handing the function the parse outcome.  A
Python exception is a class name plus a message. -/

structure PyExc where
  cls : String
  msg : String

/-- `format_decorator` (processors.py lines 73-85): like
`extract_decorator` but `@`-prefixed, with the same dropping of keyword
arguments for attribute callees. -/
def format_decorator (decorator : Py) : String :=
  match decorator with
  | .pyName id => "@" ++ id
  | .call (.pyName fid) args keywords =>
      let argStrs := Py.unparseList args
      let kwargStrs := keywords.map (fun kw =>
        match kw with
        | .keyword a v => a ++ "=" ++ v.unparse
        | other => other.unparse)
      "@" ++ fid ++ "(" ++ String.intercalate ", " (argStrs ++ kwargStrs) ++ ")"
  | .call (.attrAccess v a) args _keywords =>
      "@" ++ (Py.attrAccess v a).unparse ++ "(" ++
        String.intercalate ", " (Py.unparseList args) ++ ")"
  | other => "@" ++ other.unparse

mutual

/-- `format_node` of `format_body` (processors.py lines 99-209), as a list
of lines (the source builds a string and splits it on newlines; the line
list is the same).  Of the special-cased compound statements only `try`
occurs in the fragment; everything else takes the default
`f"{indent_str}{ast.unparse(node)}"` branch. -/
def formatNodeLines (ind : Nat) : Py → List String
  | .tryStmt body handlers orelse finalbody =>
      let indentStr := String.join (List.replicate ind "    ")
      [indentStr ++ "try:"] ++ formatBlockLines (ind + 1) body ++
        formatHandlersLines ind handlers ++
        (if orelse.isEmpty then [] else
          [indentStr ++ "else:"] ++ formatBlockLines (ind + 1) orelse) ++
        (if finalbody.isEmpty then [] else
          [indentStr ++ "finally:"] ++ formatBlockLines (ind + 1) finalbody)
  | other => [String.join (List.replicate ind "    ") ++ other.unparse]

def formatBlockLines (ind : Nat) : List Py → List String
  | [] => []
  | x :: xs => formatNodeLines ind x ++ formatBlockLines ind xs

def formatHandlersLines (ind : Nat) : List Py → List String
  | [] => []
  | .exceptHandler typ nm hbody :: hs =>
      let indentStr := String.join (List.replicate ind "    ")
      (match typ, nm with
       | some t, some nmv => [indentStr ++ "except " ++ t.unparse ++ " as " ++ nmv ++ ":"]
       | some t, none => [indentStr ++ "except " ++ t.unparse ++ ":"]
       | none, _ => [indentStr ++ "except:"]) ++
        formatBlockLines (ind + 1) hbody ++ formatHandlersLines ind hs
  | _ :: hs => formatHandlersLines ind hs

end

/-- `format_body` (processors.py lines 87-216): `"pass"` for an empty body,
else the formatted nodes joined by newlines. -/
def formatBody (body : List Py) : String :=
  if body.isEmpty then "pass"
  else String.intercalate "\n" (formatBlockLines 0 body)

/-- `ast.get_docstring(node) or default` — Python's `or` also replaces an
empty docstring. -/
def docstringOr (dflt : String) (node : Py) : String :=
  match getDocstring node with
  | some d => if d = "" then dflt else d
  | none => dflt

/-- The per-function documentation entry (processors.py lines 236-274); the
`filter(None, …)` join drops the empty separator strings, so only the truthy
entries remain. -/
def funcDocEntry (isMethod : Bool) (node : Py) : List String :=
  match node with
  | .functionDef name args _body decoratorList =>
      funcDocEntryCore isMethod false name args node decoratorList
  | .asyncFunctionDef name args _body decoratorList =>
      funcDocEntryCore isMethod true name args node decoratorList
  | _ => []
where
  funcDocEntryCore (isMethod isAsync : Bool) (name : String) (args : List String)
      (node : Py) (decoratorList : List Py) : List String :=
    let heading :=
      if isMethod then (if isAsync then "#### Async Method: `" else "#### Method: `")
      else (if isAsync then "### Async Function: `" else "### Function: `")
    let decorators := decoratorList.map format_decorator
    let argStrs := args.map (fun a => "`" ++ a ++ "`")
    let bodyStr := formatBody (bodyOf node)
    [heading ++ name ++ "`"] ++
      (if decorators.isEmpty then [] else
        ["**Decorators:**",
         String.intercalate "\n" (decorators.map (fun d => "- `" ++ d ++ "`"))]) ++
      ["**Signature:**",
       "```python\n" ++ name ++ "(" ++ String.intercalate ", " argStrs ++ ")\n```",
       "**Documentation:**",
       docstringOr "No documentation available." node] ++
      (if bodyStr = "pass" then [] else
        ["**Implementation:**", "```python\n" ++ bodyStr ++ "\n```"])

/-- The per-class documentation entry (processors.py lines 278-342). -/
def classDocEntry (node : Py) : List String :=
  match node with
  | .classDef name bases body =>
      let basesStr :=
        if bases.isEmpty then ""
        else "(" ++ String.intercalate ", "
          (bases.map (fun b => "`" ++ b.unparse ++ "`")) ++ ")"
      let methods := body.filter (fun child =>
        match child with
        | .functionDef _ _ _ _ => true
        | .asyncFunctionDef _ _ _ _ => true
        | _ => false)
      let methodEntries := methods.map (fun child =>
        String.intercalate "\n" (funcDocEntry true child))
      ["### Class: `" ++ name ++ "`" ++ basesStr,
       "**Documentation:**",
       docstringOr "No documentation available." node] ++
      (if methodEntries.isEmpty then [] else
        ["**Methods:**", String.intercalate "\n\n" methodEntries])
  | _ => []

/-- Is `node` a direct child of some class body of `tree` (the method test
of processors.py lines 237-238)? -/
def isDirectClassMember (tree node : Py) : Bool :=
  (tree.walk).any (fun parent =>
    match parent with
    | .classDef _ _ body => body.any (fun child => child.beq node)
    | _ => false)

/-- The degraded document of the `except` branch (processors.py lines
363-381), as its line list (the result is these lines joined by newlines,
with no truthiness filter). -/
def errorDocLines (moduleName : String) (e : PyExc) : List String :=
  [ "# Module: `" ++ moduleName ++ "`",
    "",
    "## Error",
    "Failed to generate complete documentation: " ++ e.msg,
    "",
    "## Basic Information",
    "This module is part of the codebase but detailed documentation could not be generated.",
    "Please check the source code directly for more information.",
    "",
    "### Error Details",
    "```python",
    e.cls,
    e.msg,
    "```" ]

/-- `seppy.processors.create_module_docs` (processors.py lines 50-381): the
whole body sits in one `try` whose blanket `except Exception` returns the
degraded document, so the function always returns a string.  `parseResult`
is the outcome of the initial `ast.parse(code)` step (including its
indentation-fix retry); on the fragment every later step is total, so the
only failure the model can exhibit is a parse failure. -/
def create_module_docs (moduleName : String) (parseResult : Except PyExc Py) : String :=
  match parseResult with
  | .error e => String.intercalate "\n" (errorDocLines moduleName e)
  | .ok tree =>
      let docstring := docstringOr "No module documentation available." tree
      let fnEntries := ((tree.walk).filter (fun n =>
        match n with
        | .functionDef _ _ _ _ => !isDirectClassMember tree n
        | .asyncFunctionDef _ _ _ _ => !isDirectClassMember tree n
        | _ => false)).map (fun n => String.intercalate "\n" (funcDocEntry false n))
      let clsEntries := ((tree.walk).filter (fun n =>
        match n with
        | .classDef _ _ _ => true
        | _ => false)).map (fun n => String.intercalate "\n" (classDocEntry n))
      String.intercalate "\n"
        (["# Module: `" ++ moduleName ++ "`",
          "## Description",
          docstring] ++
         (if fnEntries.isEmpty then [] else
           ["## Functions", String.intercalate "\n\n" fnEntries]) ++
         (if clsEntries.isEmpty then [] else
           ["## Classes", String.intercalate "\n\n" clsEntries]))

/-! ## A fragment of Python's grammar, for round-trip checks

Modelled from the spec: a Unit's source text "must independently re-parse
under the same grammar used for the original script" — CPython's grammar,
which is not part of this repository.  We model the one production the
counterexample needs: an `except` clause is
`"except" expression ["as" identifier] ":"`, where the `as` binding must be
a NAME token — an identifier that is not one of Python's reserved
keywords (`None` is a keyword). -/

def pyKeywords : List String :=
  ["False", "None", "True", "and", "as", "assert", "async", "await", "break",
   "class", "continue", "def", "del", "elif", "else", "except", "finally",
   "for", "from", "global", "if", "import", "in", "is", "lambda", "nonlocal",
   "not", "or", "pass", "raise", "return", "try", "while", "with", "yield"]

def isPyIdentifier (s : String) : Bool :=
  match s.data with
  | [] => false
  | c :: rest =>
      (c.isAlpha || c == '_') && rest.all (fun d => d.isAlphanum || d == '_') &&
        !pyKeywords.contains s

/-- Does a single rendered `except …` line conform to the except-clause
production?  (The expression part is not checked — only the shape of the
clause and the NAME restriction on the `as` binding, which is all the
counterexample needs.) -/
def exceptLineReparses (line : String) : Bool :=
  match splitStrOn ' ' line with
  | ["except:"] => true
  | ["except", t] => strEndsWith t ":"
  | ["except", _t, "as", b] => strEndsWith b ":" && isPyIdentifier (dropRightStr b 1)
  | _ => false

/-! ## Concrete inputs for the claims -/

/-- A source-segment oracle with no recoverable spans: what
`ast.get_source_segment` yields — without raising — for nodes that carry no
position attributes (nodes constructed by hand rather than returned by
`ast.parse`). -/
def noSlices : String → Py → Except String (Option String) := fun _ _ => Except.ok none

/-- C1's failing script:
```python
class C:
    def m(self):
        try:
            pass
        except ValueError:
            pass
```
-/
def mNodeC1 : Py :=
  .functionDef "m" ["self"]
    [.tryStmt [.passStmt] [.exceptHandler (some (.pyName "ValueError")) none [.passStmt]] [] []]
    []

def classNodeC1 : Py := .classDef "C" [] [mNodeC1]

def treeC1 : Py := .module [classNodeC1]

def srcC1 : String :=
  "class C:\n    def m(self):\n        try:\n            pass\n        except ValueError:\n            pass"

/-- The exact spans `ast.get_source_segment` recovers from `srcC1`: the
class spans the whole text; the method spans everything from its `def`
column on. -/
def σC1 : String → Py → Except String (Option String) := fun source node =>
  if source = srcC1 then
    Except.ok
      (if node == classNodeC1 then some srcC1
       else if node == mNodeC1 then
         some "def m(self):\n        try:\n            pass\n        except ValueError:\n            pass"
       else none)
  else Except.ok none

def runC1 : Except SeppyError (List (String × ModuleInfo)) × ProcessingStats × Graph :=
  parse_script σC1 DEFAULT_CONFIG.ignorePatterns (.parsed treeC1 (some srcC1))

def codeC1 : String :=
  ((lookupAssoc (modulesAfter runC1.1) "c").map (fun mi => mi.code)).getD ""

/-- C2's failing script:
```python
def a():
    pass

def b():
    return runtime_checkable(x)

def c():
    pass
```
Analysing `b` makes the analyzer dereference the nonexistent `n.parent`
attribute. -/
def aNodeC2 : Py := .functionDef "a" [] [.passStmt] []

def bNodeC2 : Py :=
  .functionDef "b" [] [.ret (.call (.pyName "runtime_checkable") [.pyName "x"] [])] []

def cNodeC2 : Py := .functionDef "c" [] [.passStmt] []

def treeC2 : Py := .module [aNodeC2, bNodeC2, cNodeC2]

def srcC2 : String :=
  "def a():\n    pass\n\ndef b():\n    return runtime_checkable(x)\n\ndef c():\n    pass"

/-- The same script with the offending declaration removed. -/
def treeC2ctrl : Py := .module [aNodeC2, cNodeC2]

def srcC2ctrl : String := "def a():\n    pass\n\ndef c():\n    pass"

/-- The exact spans `ast.get_source_segment` recovers from `srcC2` and from
`srcC2ctrl`: each top-level function spans its own lines. -/
def σC2 : String → Py → Except String (Option String) := fun source node =>
  if source = srcC2 then
    Except.ok
      (if node == aNodeC2 then some "def a():\n    pass"
       else if node == bNodeC2 then some "def b():\n    return runtime_checkable(x)"
       else if node == cNodeC2 then some "def c():\n    pass"
       else none)
  else if source = srcC2ctrl then
    Except.ok
      (if node == aNodeC2 then some "def a():\n    pass"
       else if node == cNodeC2 then some "def c():\n    pass"
       else none)
  else Except.ok none

def runC2 : Except SeppyError (List (String × ModuleInfo)) × ProcessingStats × Graph :=
  parse_script σC2 DEFAULT_CONFIG.ignorePatterns (.parsed treeC2 (some srcC2))

/-- The control run without `b`: the other two declarations are processed
fine, showing the failure is caused by `b` alone. -/
def runC2ctrl : Except SeppyError (List (String × ModuleInfo)) × ProcessingStats × Graph :=
  parse_script σC2 DEFAULT_CONFIG.ignorePatterns (.parsed treeC2ctrl (some srcC2ctrl))

/-- C3's doubly nested declarations: `h` inside `f` inside `g`. -/
def hNodeC3 : Py := .functionDef "h" [] [.passStmt] []

def fNodeC3 : Py := .functionDef "f" [] [hNodeC3] []

def gNodeC3 : Py := .functionDef "g" [] [fNodeC3] []

def treeC3 : Py := .module [gNodeC3]

/-- C4's script, a nested function:
```python
def outer():
    def inner():
        pass
```
-/
def innerNodeC4 : Py := .functionDef "inner" [] [.passStmt] []

def outerNodeC4 : Py := .functionDef "outer" [] [innerNodeC4] []

def treeC4 : Py := .module [outerNodeC4]

def srcC4 : String := "def outer():\n    def inner():\n        pass"

/-- The exact spans `ast.get_source_segment` recovers from `srcC4`: `outer`
spans the whole text, `inner` spans from its `def` column on. -/
def σC4 : String → Py → Except String (Option String) := fun source node =>
  if source = srcC4 then
    Except.ok
      (if node == outerNodeC4 then some srcC4
       else if node == innerNodeC4 then some "def inner():\n        pass"
       else none)
  else Except.ok none

def runC4 : Except SeppyError (List (String × ModuleInfo)) × ProcessingStats × Graph :=
  parse_script σC4 DEFAULT_CONFIG.ignorePatterns (.parsed treeC4 (some srcC4))

/-- C5's declaration, `def f(): pass`. -/
def fnodeC5 : Py := .functionDef "f" [] [.passStmt] []

/-- C5's corrupted fact table: its `functions` dict lacks the declaration
(and its nonempty source text contains no recoverable span for the
position-less node, forcing the structural-fallback path). -/
def structC5 : Structures := Structures.mk { source := "pass" } []

/-- The analyzer's own per-function entry for `fnodeC5` (what `funcInfoOf`
computes). -/
def fiC5 : FuncInfo :=
  { args := [], returns := "", decorators := [], isAsync := false,
    body := [Py.passStmt], docstring := none, nestedFunctions := [],
    node := fnodeC5 }

/-- A pipeline-style fact table whose source is the empty string — exactly
what `_split_into_modules` hands the synthesizer when the re-read of the
source file fails — with the declaration's entry present. -/
def structC5empty : Structures :=
  Structures.mk { source := "", functions := [("f", fiC5)] } []

def srcC5 : String := "def f():\n    pass"

/-- The exact span `ast.get_source_segment` recovers from `srcC5`. -/
def σC5 : String → Py → Except String (Option String) := fun source node =>
  if source = srcC5 then
    Except.ok (if node == fnodeC5 then some srcC5 else none)
  else Except.ok none

/-- The fact table the pipeline itself produces for `fnodeC5` against
`srcC5`, for the amended claim's witness. -/
def structC5ok : Structures :=
  match analyze_complex_structures fnodeC5 srcC5 with
  | .ok s => s
  | .error _ => Structures.mk {} []

/-- C5's nested-class script, `class O: class N: pass`, whose analysis
records a `nested_classes` entry. -/
def outerC5 : Py := .classDef "O" [] [.classDef "N" [] [.passStmt]]

def srcOuterC5 : String := "class O:\n    class N:\n        pass"

/-- The fact table the analyzer itself produces for `outerC5` — including
the `nested_classes` entry for `N` (analyzers.py line 364). -/
def structOuterC5 : Structures :=
  match analyze_complex_structures outerC5 srcOuterC5 with
  | .ok s => s
  | .error _ => Structures.mk {} []

/-- Whether the fact table holds the entry the fallback path of
`create_complex_module` subscripts (`structures['classes'][node.name]`,
`func_dict[node.name]`). -/
def declPresent (node : Py) (structures : Structures) : Bool :=
  match node with
  | .classDef _ _ _ => (lookupAssoc structures.classes (declName node)).isSome
  | .functionDef _ _ _ _ => (lookupAssoc structures.functions (declName node)).isSome
  | .asyncFunctionDef _ _ _ _ => (lookupAssoc structures.asyncFunctions (declName node)).isSome
  | _ => true

/-- C7's script: a class `TestHelper` and a function `Helper`, filtered with
the ignore-prefix `test`.
```python
class TestHelper:
    pass

def Helper():
    pass
```
-/
def thNodeC7 : Py := .classDef "TestHelper" [] [.passStmt]

def helperNodeC7 : Py := .functionDef "Helper" [] [.passStmt] []

def treeC7 : Py := .module [thNodeC7, helperNodeC7]

def srcC7 : String := "class TestHelper:\n    pass\n\ndef Helper():\n    pass"

/-- The exact spans `ast.get_source_segment` recovers from `srcC7`. -/
def σC7 : String → Py → Except String (Option String) := fun source node =>
  if source = srcC7 then
    Except.ok
      (if node == thNodeC7 then some "class TestHelper:\n    pass"
       else if node == helperNodeC7 then some "def Helper():\n    pass"
       else none)
  else Except.ok none

def runC7 : Except SeppyError (List (String × ModuleInfo)) × ProcessingStats × Graph :=
  parse_script σC7 ["test"] (.parsed treeC7 (some srcC7))

/-- C8's script: `def a(): return b()` followed by `def b(): pass`. -/
def treeC8 : Py := .module [
  .functionDef "a" [] [.ret (.call (.pyName "b") [] [])] [],
  .functionDef "b" [] [.passStmt] []]

/-- C9's decorator with an attribute callee and a keyword argument:
`@mod.dec(1, key=2)`. -/
def decC9 : Py := .call (.attrAccess (.pyName "mod") "dec") [.intConst 1] [.keyword "key" (.intConst 2)]

/-- Keyword-argument rendering of the name-callee branch of
`extract_decorator` (analyzers.py line 110). -/
def renderDecoratorKw (kw : Py) : String :=
  match kw with
  | .keyword a v => a ++ "=" ++ v.unparse
  | other => other.unparse

/-! # Theorems

Everything below is proof; all executable definitions are above. -/

theorem psize_pos (t : Py) : 1 ≤ t.psize := by
  cases t <;> simp [Py.psize] <;> omega

theorem psizeL_append (a b : List Py) : Py.psizeL (a ++ b) = Py.psizeL a + Py.psizeL b := by
  induction a with
  | nil => simp [Py.psizeL]
  | cons x xs ih => simp [Py.psizeL, ih]; omega

theorem psize_children (t : Py) : t.psize = 1 + Py.psizeL t.children := by
  cases t <;> simp [Py.psize, Py.children, Py.psizeL, psizeL_append] <;>
    first
    | omega
    | (rename_i o _ _; cases o <;> simp [Py.psizeO, Option.toList, Py.psizeL, psizeL_append] <;> omega)

theorem psizeL_step (ts : List Py) :
    Py.psizeL (stepChildren ts) + ts.length ≤ Py.psizeL ts := by
  induction ts with
  | nil => simp [stepChildren, Py.psizeL]
  | cons t ts ih =>
      simp only [stepChildren, List.flatMap_cons, psizeL_append, Py.psizeL, List.length_cons]
      have h1 := psize_children t
      simp only [stepChildren] at ih
      omega

theorem nodesAt_nil (n : Nat) : nodesAt n [] = [] := by
  induction n with
  | zero => rfl
  | succ n ih => simp [nodesAt, stepChildren, ih]

theorem walkTo_nil (n : Nat) : walkTo n [] = [] := by
  induction n with
  | zero => rfl
  | succ n ih => simp [walkTo, stepChildren, ih]


theorem walkQueue_nil : walkQueue [] = [] := by
  simp only [walkQueue]

theorem walkQueue_cons (t : Py) (rest : List Py) :
    walkQueue (t :: rest) = t :: walkQueue (rest ++ t.children) := by
  simp only [walkQueue]

theorem walkQueue_acc (ts acc : List Py) :
    walkQueue (ts ++ acc) = ts ++ walkQueue (acc ++ stepChildren ts) := by
  induction ts generalizing acc with
  | nil => simp [stepChildren]
  | cons t ts ih =>
      rw [List.cons_append, walkQueue_cons]
      rw [List.append_assoc, ih (acc ++ t.children)]
      simp [stepChildren, List.append_assoc]

theorem walkQueue_unfold (ts : List Py) :
    walkQueue ts = ts ++ walkQueue (stepChildren ts) := by
  have h := walkQueue_acc ts []
  simpa using h

/-- The level-order computation of the walk agrees with the FIFO-queue
traversal as soon as the fuel covers the total node count. -/
theorem walkQueue_eq_walkTo (n : Nat) (ts : List Py) (h : Py.psizeL ts ≤ n) :
    walkQueue ts = walkTo n ts := by
  induction n generalizing ts with
  | zero =>
      cases ts with
      | nil => rw [walkQueue_nil]; rfl
      | cons t rest =>
          exfalso
          have := psize_pos t
          simp [Py.psizeL] at h
          omega
  | succ n ih =>
      cases ts with
      | nil => simp [walkTo_nil, walkQueue_nil]
      | cons t rest =>
          rw [walkQueue_unfold, walkTo]
          congr 1
          apply ih
          have h1 := psizeL_step (t :: rest)
          simp [List.length_cons] at h1
          omega

theorem walk_eq_walkQueue (t : Py) : t.walk = walkQueue [t] := by
  have h : Py.psizeL [t] ≤ t.psize := by simp [Py.psizeL]
  rw [Py.walk, walkQueue_eq_walkTo t.psize [t] h]


/-! ## Characterising `get_parent_function_or_class`

`ast.walk` is breadth-first, so the first `FunctionDef`/`ClassDef` whose
subtree contains a node is the one of minimal depth.  The lemmas below show
that when a candidate `g` at depth `m` is the unique matching node at depth
at most `m`, the scan returns `g`. -/

theorem find?_eq_some_of_unique {p : Py → Bool} (l : List Py) (g : Py)
    (hmem : g ∈ l) (hg : p g = true) (huniq : ∀ y ∈ l, p y = true → y = g) :
    l.find? p = some g := by
  induction l with
  | nil => cases hmem
  | cons x xs ih =>
      by_cases hx : p x = true
      · have : x = g := huniq x (List.mem_cons_self x xs) hx
        subst this
        simp [List.find?_cons_of_pos, hx]
      · have hxg : x ≠ g := fun h => hx (h ▸ hg)
        have hmem2 : g ∈ xs := by
          cases hmem with
          | head => exact absurd rfl hxg
          | tail _ h => exact h
        rw [List.find?_cons_of_neg _ (by simpa using hx)]
        exact ih hmem2 (fun y hy hp => huniq y (List.mem_cons_of_mem _ hy) hp)

theorem mem_nodesAt_lt (m : ℕ) (ts : List Py) (y : Py) (h : y ∈ nodesAt m ts) :
    m < Py.psizeL ts := by
  induction m generalizing ts with
  | zero =>
      cases ts with
      | nil => cases h
      | cons t rest =>
          have := psize_pos t
          simp [Py.psizeL]
          omega
  | succ m ih =>
      have hstep : m < Py.psizeL (stepChildren ts) := ih (stepChildren ts) h
      have hne : ts ≠ [] := by
        intro hnil
        subst hnil
        have h2 : y ∈ nodesAt m (stepChildren []) := h
        rw [show stepChildren [] = [] from rfl, nodesAt_nil] at h2
        exact absurd h2 (List.not_mem_nil y)
      have hlen : 1 ≤ ts.length := by
        cases ts with
        | nil => exact absurd rfl hne
        | cons a b => simp
      have := psizeL_step ts
      omega

theorem find_walkTo {p : Py → Bool} (m : ℕ) (g : Py) :
    ∀ (n : ℕ) (ts : List Py), m < n → p g = true → g ∈ nodesAt m ts →
    (∀ y k, k ≤ m → y ∈ nodesAt k ts → p y = true → y = g ∧ k = m) →
    (walkTo n ts).find? p = some g := by
  induction m with
  | zero =>
      intro n ts hn hg hmem hOnly
      obtain ⟨n0, rfl⟩ : ∃ n0, n = n0 + 1 := ⟨n - 1, by omega⟩
      rw [walkTo, List.find?_append]
      have hfirst : ts.find? p = some g := by
        apply find?_eq_some_of_unique ts g hmem hg
        intro y hy hp
        exact (hOnly y 0 (by omega) hy hp).1
      rw [hfirst]
      rfl
  | succ m ih =>
      intro n ts hn hg hmem hOnly
      obtain ⟨n0, rfl⟩ : ∃ n0, n = n0 + 1 := ⟨n - 1, by omega⟩
      rw [walkTo, List.find?_append]
      have hnone : ts.find? p = none := by
        rw [List.find?_eq_none]
        intro y hy hp
        have := (hOnly y 0 (by omega) hy (by simpa using hp)).2
        omega
      rw [hnone, Option.none_or]
      apply ih n0 (stepChildren ts) (by omega) hg hmem
      intro y k hk hy hp
      have := hOnly y (k + 1) (by omega) hy hp
      exact ⟨this.1, by omega⟩

theorem get_parent_eq_of (t d g : Py) (m : ℕ)
    (hgP : (isSyncFnOrClass g && (g.walk).contains d) = true)
    (hgm : g ∈ nodesAt m [t])
    (hOnly : ∀ y k, k ≤ m → y ∈ nodesAt k [t] →
      (isSyncFnOrClass y && (y.walk).contains d) = true → y = g ∧ k = m) :
    get_parent_function_or_class d t = some (declName g) := by
  have hmlt : m < Py.psize t := by
    have := mem_nodesAt_lt m [t] g hgm
    simp [Py.psizeL] at this
    omega
  unfold get_parent_function_or_class
  rw [show t.walk = walkTo t.psize [t] from rfl]
  rw [find_walkTo m g t.psize [t] hmlt hgP hgm hOnly]
  rfl


/-! ## Monotonicity of the graph-building fold -/

theorem mem_lookupEdges_addEdge_self (g : Graph) (k v : String) :
    v ∈ lookupEdges (addEdge g k v) k := by
  induction g with
  | nil => simp [addEdge, lookupEdges]
  | cons p rest ih =>
      obtain ⟨k0, vs⟩ := p
      by_cases hk : k0 = k
      · subst hk
        by_cases hv : v ∈ vs <;> simp [addEdge, lookupEdges, hv]
      · simp [addEdge, lookupEdges, hk, ih]

theorem mem_lookupEdges_addEdge_of_mem (g : Graph) (a k v x : String)
    (h : x ∈ lookupEdges g a) : x ∈ lookupEdges (addEdge g k v) a := by
  induction g with
  | nil => simp [lookupEdges] at h
  | cons p rest ih =>
      obtain ⟨k0, vs⟩ := p
      by_cases hk : k0 = k
      · subst hk
        by_cases ha : k0 = a
        · subst ha
          simp [lookupEdges] at h
          by_cases hv : v ∈ vs <;> simp [addEdge, lookupEdges, hv, h]
        · simp only [lookupEdges, if_neg ha] at h
          simp [addEdge, lookupEdges, ha, h]
      · by_cases ha : k0 = a
        · subst ha
          simp [lookupEdges] at h
          simp [addEdge, lookupEdges, hk, h]
        · simp only [lookupEdges, if_neg ha] at h
          simp only [addEdge, if_neg hk, lookupEdges, if_neg ha]
          exact ih h

theorem mem_lookupEdges_recordCallEdge (owner : String) (acc : Graph) (child : Py)
    (a x : String) (h : x ∈ lookupEdges acc a) :
    x ∈ lookupEdges (recordCallEdge owner acc child) a := by
  unfold recordCallEdge
  split <;> first
    | exact mem_lookupEdges_addEdge_of_mem _ _ _ _ _ h
    | exact h

theorem mem_lookupEdges_foldl_recordCallEdge (owner : String) (l : List Py)
    (acc : Graph) (a x : String) (h : x ∈ lookupEdges acc a) :
    x ∈ lookupEdges (l.foldl (recordCallEdge owner) acc) a := by
  induction l generalizing acc with
  | nil => exact h
  | cons c cs ih =>
      exact ih _ (mem_lookupEdges_recordCallEdge owner acc c a x h)

theorem mem_lookupEdges_processDeclNode (tree : Py) (g : Graph) (node : Py)
    (a x : String) (h : x ∈ lookupEdges g a) :
    x ∈ lookupEdges (processDeclNode tree g node) a := by
  unfold processDeclNode
  split
  · apply mem_lookupEdges_foldl_recordCallEdge
    split
    · exact mem_lookupEdges_addEdge_of_mem _ _ _ _ _ h
    · exact h
  · exact h

theorem mem_lookupEdges_foldl_processDeclNode (tree : Py) (l : List Py)
    (g : Graph) (a x : String) (h : x ∈ lookupEdges g a) :
    x ∈ lookupEdges (l.foldl (processDeclNode tree) g) a := by
  induction l generalizing g with
  | nil => exact h
  | cons c cs ih =>
      exact ih _ (mem_lookupEdges_processDeclNode tree g c a x h)


/-! ## Keys of the module dict -/

theorem keys_insertAssoc {α : Type} (l : List (String × α)) (k : String) (v : α) :
    (insertAssoc l k v).map Prod.fst =
      if k ∈ l.map Prod.fst then l.map Prod.fst else l.map Prod.fst ++ [k] := by
  induction l with
  | nil => simp [insertAssoc]
  | cons p rest ih =>
      obtain ⟨k0, v0⟩ := p
      by_cases hk : k0 = k
      · subst hk
        simp [insertAssoc]
      · simp only [insertAssoc, if_neg hk, List.map_cons, ih]
        have hne : ¬ k = k0 := fun h => hk h.symm
        by_cases hmem : k ∈ rest.map Prod.fst <;>
          simp [List.mem_cons, hne, hmem]

theorem mem_keys_insertAssoc_self {α : Type} (l : List (String × α)) (k : String) (v : α) :
    k ∈ (insertAssoc l k v).map Prod.fst := by
  rw [keys_insertAssoc]
  by_cases hmem : k ∈ l.map Prod.fst <;> simp [hmem]

theorem mem_keys_insertAssoc_of_mem {α : Type} (l : List (String × α)) (k k0 : String) (v : α)
    (h : k0 ∈ l.map Prod.fst) : k0 ∈ (insertAssoc l k v).map Prod.fst := by
  rw [keys_insertAssoc]
  by_cases hmem : k ∈ l.map Prod.fst <;> simp [hmem, h]

theorem nodup_keys_insertAssoc {α : Type} (l : List (String × α)) (k : String) (v : α)
    (h : (l.map Prod.fst).Nodup) : ((insertAssoc l k v).map Prod.fst).Nodup := by
  rw [keys_insertAssoc]
  by_cases hmem : k ∈ l.map Prod.fst <;> simp [hmem, h, List.nodup_append]

/-! ## The declaration loops of `_split_into_modules` -/

theorem foldlM_ok_cons {α β : Type} (f : β → α → Except String β) (init : β) (x : α)
    (xs : List α) (out : β) (h : List.foldlM f init (x :: xs) = Except.ok out) :
    ∃ a, f init x = Except.ok a ∧ List.foldlM f a xs = Except.ok out := by
  rcases hx : f init x with e | a
  · rw [List.foldlM_cons, hx] at h
    have h2 : (Except.error e : Except String β) = Except.ok out := h
    cases h2
  · refine ⟨a, rfl, ?_⟩
    rw [List.foldlM_cons, hx] at h
    exact h

theorem foldlM_keys_mono
    {step : List (String × ModuleInfo) → Py → Except String (List (String × ModuleInfo))}
    (Hmono : ∀ ms n out, step ms n = Except.ok out →
      ∀ k ∈ ms.map Prod.fst, k ∈ out.map Prod.fst) :
    ∀ (l : List Py) (init out : List (String × ModuleInfo)),
      List.foldlM step init l = Except.ok out →
      ∀ k ∈ init.map Prod.fst, k ∈ out.map Prod.fst := by
  intro l
  induction l with
  | nil =>
      intro init out h k hk
      have h2 : init = out := Except.ok.inj h
      exact h2 ▸ hk
  | cons x xs ih =>
      intro init out h k hk
      obtain ⟨a, hx, hrest⟩ := foldlM_ok_cons _ _ _ _ _ h
      exact ih a out hrest k (Hmono init x a hx k hk)

theorem foldlM_keys_nodup
    {step : List (String × ModuleInfo) → Py → Except String (List (String × ModuleInfo))}
    (HN : ∀ ms n out, step ms n = Except.ok out →
      (ms.map Prod.fst).Nodup → (out.map Prod.fst).Nodup) :
    ∀ (l : List Py) (init out : List (String × ModuleInfo)),
      List.foldlM step init l = Except.ok out →
      (init.map Prod.fst).Nodup → (out.map Prod.fst).Nodup := by
  intro l
  induction l with
  | nil =>
      intro init out h hn
      have h2 : init = out := Except.ok.inj h
      exact h2 ▸ hn
  | cons x xs ih =>
      intro init out h hn
      obtain ⟨a, hx, hrest⟩ := foldlM_ok_cons _ _ _ _ _ h
      exact ih a out hrest (HN init x a hx hn)

theorem foldlM_keys_adds
    {step : List (String × ModuleInfo) → Py → Except String (List (String × ModuleInfo))}
    {P : Py → Prop} {key : Py → String}
    (Hmono : ∀ ms n out, step ms n = Except.ok out →
      ∀ k ∈ ms.map Prod.fst, k ∈ out.map Prod.fst)
    (Hadd : ∀ ms n out, step ms n = Except.ok out → P n → key n ∈ out.map Prod.fst) :
    ∀ (l : List Py) (init out : List (String × ModuleInfo)),
      List.foldlM step init l = Except.ok out →
      ∀ n ∈ l, P n → key n ∈ out.map Prod.fst := by
  intro l
  induction l with
  | nil =>
      intro init out h n hn
      cases hn
  | cons x xs ih =>
      intro init out h n hn hp
      obtain ⟨a, hx, hrest⟩ := foldlM_ok_cons _ _ _ _ _ h
      cases hn with
      | head => exact foldlM_keys_mono Hmono xs a out hrest _ (Hadd init x a hx hp)
      | tail _ htail => exact ih a out hrest n htail hp

theorem processClassDecl_ok_spec (σ : String → Py → Except String (Option String))
    (ignorePatterns : List String) (sourceCode : String)
    (modules out : List (String × ModuleInfo)) (node : Py)
    (h : processClassDecl σ ignorePatterns sourceCode modules node = Except.ok out) :
    (∀ k ∈ modules.map Prod.fst, k ∈ out.map Prod.fst) ∧
    ((modules.map Prod.fst).Nodup → (out.map Prod.fst).Nodup) ∧
    ((ignorePatterns.any (fun p => strStartsWith (pyLower (declName node)) p)) = false →
      pyLower (declName node) ∈ out.map Prod.fst) := by
  rcases hig : ignorePatterns.any (fun p => strStartsWith (pyLower (declName node)) p) with _ | _
  · rcases ha : analyze_complex_structures node sourceCode with e | structures
    · simp [processClassDecl, hig, ha] at h
    · rcases hc : create_complex_module σ (pyLower (declName node)) node structures with e | code
      · simp [processClassDecl, hig, ha, hc] at h
      · simp [processClassDecl, hig, ha, hc] at h
        subst h
        exact ⟨fun k hk => mem_keys_insertAssoc_of_mem _ _ _ _ hk,
          fun hn => nodup_keys_insertAssoc _ _ _ hn,
          fun _ => mem_keys_insertAssoc_self _ _ _⟩
  · simp [processClassDecl, hig] at h
    subst h
    exact ⟨fun k hk => hk, fun hn => hn,
      fun hcontra => by simp [hig] at hcontra⟩

theorem processFuncDecl_ok_spec (σ : String → Py → Except String (Option String))
    (ignorePatterns : List String) (sourceCode : String)
    (modules out : List (String × ModuleInfo)) (node : Py)
    (h : processFuncDecl σ ignorePatterns sourceCode modules node = Except.ok out) :
    (∀ k ∈ modules.map Prod.fst, k ∈ out.map Prod.fst) ∧
    ((modules.map Prod.fst).Nodup → (out.map Prod.fst).Nodup) ∧
    ((ignorePatterns.any (fun p => strStartsWith (pyLower (declName node)) p)) = false →
      pyLower (declName node) ∈ out.map Prod.fst) := by
  rcases hig : ignorePatterns.any (fun p => strStartsWith (pyLower (declName node)) p) with _ | _
  · rcases ha : analyze_complex_structures node sourceCode with e | structures
    · simp [processFuncDecl, hig, ha] at h
    · rcases hc : create_complex_module σ (pyLower (declName node)) node structures with e | code
      · simp [processFuncDecl, hig, ha, hc] at h
      · simp [processFuncDecl, hig, ha, hc] at h
        subst h
        exact ⟨fun k hk => mem_keys_insertAssoc_of_mem _ _ _ _ hk,
          fun hn => nodup_keys_insertAssoc _ _ _ hn,
          fun _ => mem_keys_insertAssoc_self _ _ _⟩
  · simp [processFuncDecl, hig] at h
    subst h
    exact ⟨fun k hk => hk, fun hn => hn,
      fun hcontra => by simp [hig] at hcontra⟩

theorem splitIntoModules_keys (σ : String → Py → Except String (Option String))
    (ignorePatterns : List String) (reread : Option String)
    (functions asyncFunctions classes : List Py) (m : List (String × ModuleInfo))
    (h : splitIntoModules σ ignorePatterns reread functions asyncFunctions classes =
      Except.ok m) :
    (∀ d, (d ∈ classes ∨ d ∈ functions ++ asyncFunctions) →
      (ignorePatterns.any (fun p => strStartsWith (pyLower (declName d)) p)) = false →
      pyLower (declName d) ∈ m.map Prod.fst) ∧
    (m.map Prod.fst).Nodup := by
  rcases h1 : classes.foldlM
      (processClassDecl σ ignorePatterns (reread.getD "")) [] with e | modules1
  · simp [splitIntoModules, h1, Except.bind] at h
  · have h2 : (functions ++ asyncFunctions).foldlM
        (processFuncDecl σ ignorePatterns (reread.getD "")) modules1 = Except.ok m := by
      simpa [splitIntoModules, h1, Except.bind, bind] using h
    have cMono := fun ms n out hh =>
      (processClassDecl_ok_spec σ ignorePatterns (reread.getD "") ms out n hh).1
    have cNodup := fun ms n out hh =>
      (processClassDecl_ok_spec σ ignorePatterns (reread.getD "") ms out n hh).2.1
    have cAdd := fun ms n out hh =>
      (processClassDecl_ok_spec σ ignorePatterns (reread.getD "") ms out n hh).2.2
    have fMono := fun ms n out hh =>
      (processFuncDecl_ok_spec σ ignorePatterns (reread.getD "") ms out n hh).1
    have fNodup := fun ms n out hh =>
      (processFuncDecl_ok_spec σ ignorePatterns (reread.getD "") ms out n hh).2.1
    have fAdd := fun ms n out hh =>
      (processFuncDecl_ok_spec σ ignorePatterns (reread.getD "") ms out n hh).2.2
    constructor
    · intro d hd hig
      cases hd with
      | inl hcls =>
          have hmid : pyLower (declName d) ∈ modules1.map Prod.fst :=
            foldlM_keys_adds cMono cAdd classes [] modules1 h1 d hcls hig
          exact foldlM_keys_mono fMono (functions ++ asyncFunctions) modules1 m h2 _ hmid
      | inr hfn =>
          exact foldlM_keys_adds fMono fAdd (functions ++ asyncFunctions) modules1 m h2 d hfn hig
    · have hn1 : (modules1.map Prod.fst).Nodup :=
        foldlM_keys_nodup cNodup classes [] modules1 h1 (by simp)
      exact foldlM_keys_nodup fNodup (functions ++ asyncFunctions) modules1 m h2 hn1

theorem unparseList_eq_map (l : List Py) : Py.unparseList l = l.map Py.unparse := by
  induction l with
  | nil => rfl
  | cons x xs ih => simp [Py.unparseList, ih]

/-! ## Ok-ness of the synthesizer's slicing traversals

When every slice attempt against the table's source returns without raising,
each traversal of the fallback paths succeeds. -/

theorem renderMethodExc_ok (σ : String → Py → Except String (Option String))
    (source asyncKw : String) (m : MethodInfo)
    (hs : ∃ o, getSourceSegment σ source m.node = Except.ok o) :
    ∃ ls, renderMethodExc σ source asyncKw m = Except.ok ls := by
  obtain ⟨o, ho⟩ := hs
  cases o
  · simp only [renderMethodExc, ho]
    exact ⟨_, rfl⟩
  · simp only [renderMethodExc, ho]
    exact ⟨_, rfl⟩

theorem renderMethodsExc_ok (σ : String → Py → Except String (Option String))
    (source asyncKw : String) (ms : List MethodInfo)
    (hs : ∀ n, ∃ o, getSourceSegment σ source n = Except.ok o) :
    ∃ ls, renderMethodsExc σ source asyncKw ms = Except.ok ls := by
  induction ms with
  | nil => exact ⟨[], rfl⟩
  | cons m rest ih =>
      obtain ⟨ls1, h1⟩ := renderMethodExc_ok σ source asyncKw m (hs m.node)
      obtain ⟨ls2, h2⟩ := ih
      simp only [renderMethodsExc, h1, h2]
      exact ⟨_, rfl⟩

theorem classFallbackParts_ok (σ : String → Py → Except String (Option String))
    (node : Py) (base : StructuresBase) (ci : ClassInfo)
    (hs : ∀ n, ∃ o, getSourceSegment σ base.source n = Except.ok o) :
    ∃ ls, classFallbackParts σ node base ci = Except.ok ls := by
  obtain ⟨m1, h1⟩ := renderMethodsExc_ok σ base.source "" ci.methods hs
  obtain ⟨m2, h2⟩ := renderMethodsExc_ok σ base.source "async " ci.asyncMethods hs
  simp only [classFallbackParts, h1, h2]
  exact ⟨_, rfl⟩

theorem nestedSliceParts_ok (σ : String → Py → Except String (Option String))
    (source : String) (l : List (String × NestedInfo))
    (hs : ∀ n, ∃ o, getSourceSegment σ source n = Except.ok o) :
    ∃ ls, nestedSliceParts σ source l = Except.ok ls := by
  induction l with
  | nil => exact ⟨[], rfl⟩
  | cons p rest ih =>
      obtain ⟨o, ho⟩ := hs p.2.node
      obtain ⟨ls2, h2⟩ := ih
      simp only [nestedSliceParts, ho, h2]
      exact ⟨_, rfl⟩

theorem nestedFnFallbackPart_ok (σ : String → Py → Except String (Option String))
    (source : String) (p : String × NestedInfo)
    (hs : ∃ o, getSourceSegment σ source p.2.node = Except.ok o) :
    ∃ ls, nestedFnFallbackPart σ source p = Except.ok ls := by
  obtain ⟨o, ho⟩ := hs
  cases o
  · simp only [nestedFnFallbackPart, ho]
    exact ⟨_, rfl⟩
  · simp only [nestedFnFallbackPart, ho]
    exact ⟨_, rfl⟩

theorem nestedFnFallbackParts_ok (σ : String → Py → Except String (Option String))
    (source : String) (l : List (String × NestedInfo))
    (hs : ∀ n, ∃ o, getSourceSegment σ source n = Except.ok o) :
    ∃ ls, nestedFnFallbackParts σ source l = Except.ok ls := by
  induction l with
  | nil => exact ⟨[], rfl⟩
  | cons p rest ih =>
      obtain ⟨ls1, h1⟩ := nestedFnFallbackPart_ok σ source p (hs p.2.node)
      obtain ⟨ls2, h2⟩ := ih
      simp only [nestedFnFallbackParts, h1, h2]
      exact ⟨_, rfl⟩

theorem functionFallbackParts_ok (σ : String → Py → Except String (Option String))
    (node : Py) (base : StructuresBase) (fi : FuncInfo)
    (hs : ∀ n, ∃ o, getSourceSegment σ base.source n = Except.ok o) :
    ∃ ls, functionFallbackParts σ node base fi = Except.ok ls := by
  obtain ⟨np, hnp⟩ := nestedFnFallbackParts_ok σ base.source fi.nestedFunctions hs
  simp only [functionFallbackParts, hnp]
  exact ⟨_, rfl⟩

/-! # Claim theorems -/

/-- C1: the round-trip claim fails on the code, and the spec is the clear
intent (stated three times), so this is a code bug.  On the script
`class C: def m(self): try: … except ValueError: …` the pipeline emits a
unit for `c` whose synthesized text contains the full line
`except ValueError as None:` — the analyzer stores `None` for the missing
`as`-binding and the synthesizer interpolates it into the clause (processors.py
line 671) — and that line violates Python's except-clause grammar
(`"except" expression ["as" identifier] ":"`; `None` is a keyword, not an
identifier), so the unit's source text cannot re-parse. -/
theorem C1_unit_fails_roundtrip :
    (lookupAssoc (modulesAfter runC1.1) "c").isSome = true ∧
    strContainsSub codeC1 "\nexcept ValueError as None:\n" = true ∧
    exceptLineReparses "except ValueError as None:" = false := by
  exact ⟨by decide, by decide, by decide⟩

/-- C2: there is no per-unit recovery: `_split_into_modules` wraps no
declaration in `try`/`except`, and nothing ever increments
`failed_modules` or appends to `errors`.  On three declarations where the
analyzer raises on exactly one (`b` contains a `runtime_checkable(...)`
call, making analyzers.py line 152 dereference the nonexistent `n.parent`),
the whole run aborts with `ParseError`, zero units are emitted — also for
the healthy `a` and `c` — and the statistics still show zero failures;
removing `b` lets both other declarations be emitted. -/
theorem C2_per_unit_failure_aborts_run :
    runC2.1 = Except.error (.parseError
      "Failed to parse script: \x27Call\x27 object has no attribute \x27parent\x27") ∧
    modulesAfter runC2.1 = [] ∧
    runC2.2.1.failedModules = 0 ∧
    runC2.2.1.errors = [] ∧
    (modulesAfter runC2ctrl.1).map Prod.fst = ["a", "c"] := by
  exact ⟨by decide, by decide, by decide, by decide, by decide⟩

/-- C3 (counterexample): for `def g(): def f(): def h(): pass`, the
indexer records no edge between `h` and its immediate parent `f` in either
direction; the only nesting edges recorded are from the outermost
declaration `g` to each nested name (plus `g`'s self-edge). -/
theorem C3_counterexample_no_edge_for_immediate_parent :
    lookupEdges (analyzeDependencies treeC3) "h" = [] ∧
    lookupEdges (analyzeDependencies treeC3) "f" = [] ∧
    lookupEdges (analyzeDependencies treeC3) "g" = ["g", "f", "h"] := by
  exact ⟨by decide, by decide, by decide⟩

/-- C3 (amended): for every function/async-function/class declaration `d`,
the indexer records a nesting edge from `g`'s name to `d`'s name, where `g`
is the unique shallowest `FunctionDef`/`ClassDef` node whose subtree
contains `d` — that is, the outermost enclosing sync-function-or-class
declaration (or `d` itself when no such declaration encloses it) — not the
immediate parent, and not in the direction the claim states. -/
theorem C3_amended_edge_from_outermost (t d g : Py) (m : ℕ)
    (hd : isDeclNode d = true)
    (hdt : d ∈ t.walk)
    (hgP : (isSyncFnOrClass g && (g.walk).contains d) = true)
    (hgm : g ∈ nodesAt m [t])
    (hOnly : ∀ y k, k ≤ m → y ∈ nodesAt k [t] →
      (isSyncFnOrClass y && (y.walk).contains d) = true → y = g ∧ k = m) :
    declName d ∈ lookupEdges (analyzeDependencies t) (declName g) := by
  have hparent : get_parent_function_or_class d t = some (declName g) :=
    get_parent_eq_of t d g m hgP hgm hOnly
  obtain ⟨l1, l2, hsplit⟩ := List.append_of_mem hdt
  unfold analyzeDependencies
  rw [hsplit, List.foldl_append, List.foldl_cons]
  apply mem_lookupEdges_foldl_processDeclNode
  unfold processDeclNode
  rw [hd]
  simp only [if_true, hparent]
  apply mem_lookupEdges_foldl_recordCallEdge
  exact mem_lookupEdges_addEdge_self _ _ _

/-- Witness for C3 (amended) at the doubly nested input: `h`'s outermost
enclosing sync declaration is `g`, and the edge `g → h` is recorded. -/
theorem C3_amended_edge_from_outermost_witness :
    "h" ∈ lookupEdges (analyzeDependencies treeC3) "g" := by
  have h := C3_amended_edge_from_outermost treeC3 hNodeC3 gNodeC3 1
    (by decide)
    (by rw [show treeC3.walk = [treeC3, gNodeC3, fNodeC3, hNodeC3, Py.passStmt] from rfl]
        exact List.mem_cons_of_mem _ (List.mem_cons_of_mem _ (List.mem_cons_of_mem _
          (List.mem_cons_self _ _))))
    (by decide)
    (by rw [show nodesAt 1 [treeC3] = [gNodeC3] from rfl]
        exact List.mem_cons_self _ _)
    (by intro y k hk hy hp
        interval_cases k
        · rw [show nodesAt 0 [treeC3] = [treeC3] from rfl] at hy
          have hy2 := List.mem_singleton.mp hy
          subst hy2
          exact absurd hp (by decide)
        · rw [show nodesAt 1 [treeC3] = [gNodeC3] from rfl] at hy
          exact ⟨List.mem_singleton.mp hy, rfl⟩)
  exact h

/-- C4 (counterexample): the collector uses `ast.walk`, so the nested
function `inner` of `def outer(): def inner(): pass` becomes a unit of its
own, next to `outer` — contradicting "no nested function, method, or nested
class becomes a unit of its own". -/
theorem C4_counterexample_nested_function_becomes_unit :
    (modulesAfter runC4.1).map Prod.fst = ["outer", "inner"] := by decide

/-- C4 (amended): the partitioner collects every function, async-function
and class declaration found anywhere by `ast.walk` — nested ones included —
and each such declaration whose lowercased name does not start with an
ignore prefix appears exactly once (keys are unique) in the unit set of a
successful run; top-level declarations are thus covered, but not
exclusively. -/
theorem C4_amended_all_walked_declarations_become_units
    (σ : String → Py → Except String (Option String)) (patterns : List String) (tree : Py)
    (rr : Option String) (m : List (String × ModuleInfo))
    (hok : (parse_script σ patterns (.parsed tree rr)).1 = Except.ok m) :
    (∀ d ∈ tree.walk, isDeclNode d = true →
      (patterns.any (fun p => strStartsWith (pyLower (declName d)) p)) = false →
      pyLower (declName d) ∈ m.map Prod.fst) ∧
    (m.map Prod.fst).Nodup := by
  rcases hsplit : splitIntoModules σ patterns rr
      (tree.walk.filter (fun n =>
        match n with | .functionDef _ _ _ _ => true | _ => false))
      (tree.walk.filter (fun n =>
        match n with | .asyncFunctionDef _ _ _ _ => true | _ => false))
      (tree.walk.filter (fun n =>
        match n with | .classDef _ _ _ => true | _ => false))
    with e | modules
  · simp [parse_script, hsplit] at hok
  · simp [parse_script, hsplit] at hok
    subst hok
    obtain ⟨hmem, hnodup⟩ := splitIntoModules_keys σ patterns rr _ _ _ modules hsplit
    refine ⟨?_, hnodup⟩
    intro d hd hdecl hig
    apply hmem d ?_ hig
    cases d
    case functionDef n a b dl =>
      exact Or.inr (List.mem_append_left _ (List.mem_filter.mpr ⟨hd, rfl⟩))
    case asyncFunctionDef n a b dl =>
      exact Or.inr (List.mem_append_right _ (List.mem_filter.mpr ⟨hd, rfl⟩))
    case classDef n bs b =>
      exact Or.inl (List.mem_filter.mpr ⟨hd, rfl⟩)
    all_goals simp [isDeclNode] at hdecl

/-- Witness for C4 (amended) on the nested-function input: the successful
run contains the nested `inner` as a unit, with duplicate-free keys. -/
theorem C4_amended_all_walked_declarations_become_units_witness :
    "inner" ∈ (modulesAfter runC4.1).map Prod.fst ∧
    ((modulesAfter runC4.1).map Prod.fst).Nodup := by
  have happ := C4_amended_all_walked_declarations_become_units σC4
    DEFAULT_CONFIG.ignorePatterns treeC4 (some srcC4) (modulesAfter runC4.1) (by decide)
  refine ⟨?_, happ.2⟩
  have hmem := happ.1 innerNodeC4
    (by rw [show treeC4.walk = [treeC4, outerNodeC4, innerNodeC4, Py.passStmt] from rfl]
        exact List.mem_cons_of_mem _ (List.mem_cons_of_mem _ (List.mem_cons_self _ _)))
    (by decide) (by decide)
  exact hmem

/-- C5 (counterexample): `create_complex_module` contains no exception
handling at all.  Three failures, none of them a skipped line: (1) handed a
fact table whose `functions` dict lacks the declaration (the claim's
"corrupted fact table" scenario, a position-less node so the slice returns
`None`), the bare subscript `func_dict[node.name]` (processors.py line 554)
raises `KeyError`; (2) handed the pipeline's own empty-source table (the
re-read fallback of core.py line 169) with the entry *present*, the very
first slice attempt raises `IndexError`; (3) handed the analyzer's own
table for `class O: class N: pass`, the nested-class recursion (processors.py
lines 547-550) passes the outer node `O` with `N`'s fact table, and line 450
raises `KeyError` on the outer name even though `O`'s own entry is
present. -/
theorem C5_counterexample_keyerror_on_corrupted_table :
    create_complex_module noSlices "f" fnodeC5 structC5 =
      Except.error "KeyError: \x27f\x27" ∧
    (declPresent fnodeC5 structC5empty = true ∧
      create_complex_module noSlices "f" fnodeC5 structC5empty =
        Except.error "list index out of range") ∧
    (declPresent outerC5 structOuterC5 = true ∧
      structOuterC5.source ≠ "" ∧
      create_complex_module noSlices "o" outerC5 structOuterC5 =
        Except.error "KeyError: \x27O\x27") := by
  exact ⟨by decide, ⟨by decide, by decide⟩, ⟨by decide, by decide, by decide⟩⟩

/-- C5 (amended): the synthesizer returns text whenever the fact table's
source is nonempty, no slice attempt against that source raises, the fact
table holds the declaration's entry in the dict the fallback path
subscripts, and no nested classes are recorded; it performs no exception
handling of its own, and the skip-on-failed-stringification behaviour lives
in the analyzer, not here. -/
theorem C5_amended_returns_text_when_entry_present
    (σ : String → Py → Except String (Option String)) (name : String) (node : Py)
    (structures : Structures)
    (hsrc : structures.source ≠ "")
    (hσ : ∀ n, ∃ o, σ structures.source n = Except.ok o)
    (hpresent : declPresent node structures = true)
    (hnn : structures.nestedClasses = []) :
    ∃ text, create_complex_module σ name node structures = Except.ok text := by
  obtain ⟨base, nested⟩ := structures
  simp only [Structures.source, Structures.base] at hsrc hσ
  simp only [Structures.nestedClasses] at hnn
  subst hnn
  have hseg : ∀ n, ∃ o, getSourceSegment σ base.source n = Except.ok o := by
    intro n
    unfold getSourceSegment
    rw [if_neg hsrc]
    exact hσ n
  cases node with
  | classDef n bs b =>
      obtain ⟨o, ho⟩ := hseg (Py.classDef n bs b)
      simp only [create_complex_module, ho]
      cases o with
      | some src => exact ⟨_, rfl⟩
      | none =>
          simp only [declPresent, Structures.classes, Structures.base] at hpresent
          rcases hl : lookupAssoc base.classes (declName (Py.classDef n bs b)) with _ | ci
          · rw [hl] at hpresent
            cases hpresent
          · obtain ⟨fb, hfb⟩ := classFallbackParts_ok σ (Py.classDef n bs b) base ci hseg
            simp only [hl, hfb]
            exact ⟨_, rfl⟩
  | functionDef n a b dl =>
      obtain ⟨o, ho⟩ := hseg (Py.functionDef n a b dl)
      simp only [create_complex_module, ho]
      cases o with
      | some src => exact ⟨_, rfl⟩
      | none =>
          simp only [declPresent, Structures.functions, Structures.base] at hpresent
          rcases hl : lookupAssoc base.functions (declName (Py.functionDef n a b dl)) with _ | fi
          · rw [hl] at hpresent
            cases hpresent
          · obtain ⟨o2, ho2⟩ := hseg fi.node
            rcases o2 with _ | bodySource
            · obtain ⟨fb, hfb⟩ :=
                functionFallbackParts_ok σ (Py.functionDef n a b dl) base fi hseg
              simp only [hl, ho2, hfb]
              exact ⟨_, rfl⟩
            · obtain ⟨np, hnp⟩ := nestedSliceParts_ok σ base.source fi.nestedFunctions hseg
              simp only [hl, ho2, hnp]
              exact ⟨_, rfl⟩
  | asyncFunctionDef n a b dl =>
      obtain ⟨o, ho⟩ := hseg (Py.asyncFunctionDef n a b dl)
      simp only [create_complex_module, ho]
      cases o with
      | some src => exact ⟨_, rfl⟩
      | none =>
          simp only [declPresent, Structures.asyncFunctions, Structures.base] at hpresent
          rcases hl : lookupAssoc base.asyncFunctions (declName (Py.asyncFunctionDef n a b dl)) with _ | fi
          · rw [hl] at hpresent
            cases hpresent
          · obtain ⟨o2, ho2⟩ := hseg fi.node
            rcases o2 with _ | bodySource
            · obtain ⟨fb, hfb⟩ :=
                functionFallbackParts_ok σ (Py.asyncFunctionDef n a b dl) base fi hseg
              simp only [hl, ho2, hfb]
              exact ⟨_, rfl⟩
            · obtain ⟨np, hnp⟩ := nestedSliceParts_ok σ base.source fi.nestedFunctions hseg
              simp only [hl, ho2, hnp]
              exact ⟨_, rfl⟩
  | _ => exact ⟨_, rfl⟩

/-- Witness for C5 (amended): on the pipeline's own fact table for
`def f(): pass` against its real source text, with the exact-span oracle,
every hypothesis holds and the synthesizer returns text. -/
theorem C5_amended_returns_text_when_entry_present_witness :
    structC5ok.source ≠ "" ∧
    (∀ n, ∃ o, σC5 structC5ok.source n = Except.ok o) ∧
    declPresent fnodeC5 structC5ok = true ∧
    structC5ok.nestedClasses = [] ∧
    ∃ text, create_complex_module σC5 "f" fnodeC5 structC5ok = Except.ok text := by
  have hσ : ∀ n, ∃ o, σC5 structC5ok.source n = Except.ok o := by
    intro n
    simp only [σC5]
    split
    · exact ⟨_, rfl⟩
    · exact ⟨_, rfl⟩
  exact ⟨by decide, hσ, by decide, rfl,
    C5_amended_returns_text_when_entry_present σC5 "f" fnodeC5 structC5ok
      (by decide) hσ (by decide) rfl⟩

/-- C6: `create_module_docs` never lets an exception escape — its whole
body is one `try` whose blanket handler returns a degraded document — and
on any internal failure the result is exactly the degraded document, which
contains the module heading with the unit's name, an `## Error` section
with the failure description, and the pointer back to the source code; on
success the document still opens with the module heading. -/
theorem C6_docs_degraded_document_never_raises (moduleName : String) (e : PyExc) (tree : Py) :
    create_module_docs moduleName (Except.error e) =
      String.intercalate "\n" (errorDocLines moduleName e) ∧
    ("# Module: `" ++ moduleName ++ "`") ∈ errorDocLines moduleName e ∧
    "## Error" ∈ errorDocLines moduleName e ∧
    ("Failed to generate complete documentation: " ++ e.msg) ∈ errorDocLines moduleName e ∧
    "Please check the source code directly for more information." ∈ errorDocLines moduleName e ∧
    ∃ rest, create_module_docs moduleName (Except.ok tree) =
      String.intercalate "\n" (("# Module: `" ++ moduleName ++ "`") :: rest) := by
  refine ⟨rfl, ?_, ?_, ?_, ?_, ⟨_, rfl⟩⟩ <;> simp [errorDocLines]

/-- C7: unit filtering is lowercased-prefix matching: with ignore-prefix
`test`, the class `TestHelper` is excluded and the function `Helper`
survives as the unit `helper`. -/
theorem C7_prefix_filtering_on_lowercased_names :
    (modulesAfter runC7.1).map Prod.fst = ["helper"] ∧
    "testhelper" ∉ (modulesAfter runC7.1).map Prod.fst ∧
    "helper" ∈ (modulesAfter runC7.1).map Prod.fst := by
  exact ⟨by decide, by decide, by decide⟩

/-- C8: for `def a(): return b()` and `def b(): pass`, the dependency graph
contains the edge `a → b` and no edge `b → a`. -/
theorem C8_dependency_accuracy :
    "b" ∈ lookupEdges (analyzeDependencies treeC8) "a" ∧
    "a" ∉ lookupEdges (analyzeDependencies treeC8) "b" := by
  exact ⟨by decide, by decide⟩

/-- C9 (counterexample): for the decorator `@mod.dec(1, key=2)` — a
call-style decorator with an attribute callee — `extract_decorator` yields
`mod.dec(1)`, silently dropping the keyword argument, instead of the
faithful `mod.dec(1, key=2)` the claim requires. -/
theorem C9_counterexample_attribute_callee_drops_keywords :
    extract_decorator decC9 = "mod.dec(1)" ∧
    extract_decorator decC9 ≠ "mod.dec(1, key=2)" := by
  exact ⟨by decide, by decide⟩

/-- C9 (amended): decorator extraction distinguishes the three shapes —
a bare name yields the name; a call-style decorator with a *name* callee
yields the callee with positional arguments in order followed by the
keyword arguments; a call-style decorator with an *attribute* callee yields
the dotted callee with the positional arguments only, dropping all keyword
arguments; an attribute-path decorator yields the dotted path. -/
theorem C9_amended_decorator_shapes :
    (∀ id, extract_decorator (.pyName id) = id) ∧
    (∀ fid args kwargs, extract_decorator (.call (.pyName fid) args kwargs) =
      fid ++ "(" ++
        String.intercalate ", " (args.map Py.unparse ++ kwargs.map renderDecoratorKw) ++ ")") ∧
    (∀ v a args kwargs, extract_decorator (.call (.attrAccess v a) args kwargs) =
      v.unparse ++ "." ++ a ++ "(" ++
        String.intercalate ", " (args.map Py.unparse) ++ ")") ∧
    (∀ v a, extract_decorator (.attrAccess v a) = v.unparse ++ "." ++ a) := by
  refine ⟨fun id => rfl, fun fid args kwargs => ?_, fun v a args kwargs => ?_, fun v a => rfl⟩
  · simp only [extract_decorator, unparseList_eq_map]
    rfl
  · simp [extract_decorator, unparseList_eq_map, Py.unparse]

/-- C10: every failure inside `parse_script` — a file that cannot be opened
or read just like a text that fails to parse — surfaces as the single
`ParseError` kind with the `Failed to parse script:` wrapper, never as the
original exception, and the fresh instance's modules mapping stays empty;
the two failure modes are therefore indistinguishable by exception kind. -/
theorem C10_all_failures_are_parse_errors (σ : String → Py → Except String (Option String))
    (patterns : List String) (msg : String) :
    (parse_script σ patterns (.unreadable msg)).1 =
      Except.error (.parseError ("Failed to parse script: " ++ msg)) ∧
    (parse_script σ patterns (.unparsable msg)).1 =
      Except.error (.parseError ("Failed to parse script: " ++ msg)) ∧
    modulesAfter (parse_script σ patterns (.unreadable msg)).1 = [] ∧
    modulesAfter (parse_script σ patterns (.unparsable msg)).1 = [] := by
  exact ⟨rfl, rfl, rfl, rfl⟩

end Seppy
